import Mathlib

/-!
Verification of the rustymachine core runtime (a Java VM written in
pre-1.0 Rust).  The definitions below are a shallow embedding of the
source files `monitor.rs`, `object.rs`, `localheap.rs`, `classpath.rs`,
`classloader.rs`, `thread.rs`, `threadmanager.rs` and `objectbroker.rs`.

Modelling conventions:
 * machine integers (`uint`, `u16`, `u64`) become `Nat`; exit codes
   (`int`) become `Int`;
 * a Rust `assert!`, `fail!` or `Option::unwrap` panic is modelled by
   the operation returning `none`;
 * hash maps become insertion-ordered association lists (`alLookup`,
   `alInsert`, `alRemove` below) with unique keys;
 * a channel is identified by the id of the thread that owns its
   receiving end; sending appends to the list of messages recorded for
   that channel, and the broker additionally records every channel send
   in an append-only trace (`sent_log`) so ordering properties can be
   stated;
 * unbounded loops and the recursive message dispatcher are given an
   explicit fuel argument; `none` also stands for running out of fuel,
   so every theorem about a `some` result is about a run the real
   program completes.
-/

namespace RustyVM

/-! ### Association lists (model of `std::hashmap::HashMap`) -/

def alLookup {α : Type} : List (Nat × α) → Nat → Option α
  | [], _ => none
  | (k, v) :: rest, key => if k = key then some v else alLookup rest key

def alContains {α : Type} (l : List (Nat × α)) (key : Nat) : Bool :=
  (alLookup l key).isSome

def alInsert {α : Type} : List (Nat × α) → Nat → α → List (Nat × α)
  | [], key, v => [(key, v)]
  | (k, w) :: rest, key, v =>
    if k = key then (k, v) :: rest else (k, w) :: alInsert rest key v

def alRemove {α : Type} : List (Nat × α) → Nat → List (Nat × α)
  | [], _ => []
  | (k, w) :: rest, key =>
    if k = key then rest else (k, w) :: alRemove rest key

/-! ### `monitor.rs` : `JavaMonitor`

Fields exactly as in the source: `lock_count`, `owner` (`None` iff the
monitor is meant to be unlocked), the outside waiting queue `waiters`
and the priority queue `waiters_prio` of `(notified, tid, saved
lock_count)` triples. -/

structure JavaMonitor where
  lock_count : Nat
  owner : Option Nat
  waiters : List Nat
  waiters_prio : List (Bool × Nat × Nat)
deriving DecidableEq, Repr

def JavaMonitor.new : JavaMonitor :=
  { lock_count := 0, owner := none, waiters := [], waiters_prio := [] }

/-- `is_locked_by_thread`: `lock_count > 0 && owner.unwrap() == tid`.
`&&` short-circuits, so `unwrap` (modelled by `none` on `none`) only
runs when `lock_count > 0`. -/
def JavaMonitor.is_locked_by_thread (m : JavaMonitor) (tid : Nat) : Option Bool :=
  if m.lock_count > 0 then
    match m.owner with
    | some o => some (o = tid)
    | none => none
  else some false

/-- `is_locked`: `assert_eq!(lock_count > 0, owner.is_some())` then
returns `lock_count > 0`. A failing assert is `none`. -/
def JavaMonitor.is_locked (m : JavaMonitor) : Option Bool :=
  if decide (m.lock_count > 0) = m.owner.isSome then some (m.lock_count > 0)
  else none

/-- `can_be_locked_by_thread`: `lock_count == 0 || owner.unwrap() == tid`. -/
def JavaMonitor.can_be_locked_by_thread (m : JavaMonitor) (tid : Nat) : Option Bool :=
  if m.lock_count = 0 then some true
  else
    match m.owner with
    | some o => some (o = tid)
    | none => none

/-- `pop_ready_thread`: `None` when locked; otherwise pop the head of
`waiters_prio` if it is notified, else pop the head of `waiters`. -/
def JavaMonitor.pop_ready_thread (m : JavaMonitor) : Option (Option Nat × JavaMonitor) :=
  match m.is_locked with
  | none => none
  | some true => some (none, m)
  | some false =>
    match m.waiters_prio with
    | (notified, tid, _) :: rest =>
      if notified then some (some tid, { m with waiters_prio := rest })
      else
        match m.waiters with
        | t :: ts => some (some t, { m with waiters := ts })
        | [] => some (none, m)
    | [] =>
      match m.waiters with
      | t :: ts => some (some t, { m with waiters := ts })
      | [] => some (none, m)

/-- `push_thread(tid, is_notify)`: with `is_notify` the caller must hold
the monitor (assert) and the entry is appended un-notified with the
current `lock_count`; otherwise `tid` is appended to `waiters`. -/
def JavaMonitor.push_thread (m : JavaMonitor) (tid : Nat) (is_notify : Bool) : Option JavaMonitor :=
  if is_notify then
    match m.is_locked_by_thread tid with
    | some true =>
      some { m with waiters_prio := m.waiters_prio ++ [(false, tid, m.lock_count)] }
    | _ => none
  else some { m with waiters := m.waiters ++ [tid] }

/-- `wait_noblock`: assert ownership, `push_thread(tid, true)`, then set
`lock_count` to 0.  Note that the source never clears `owner`. -/
def JavaMonitor.wait_noblock (m : JavaMonitor) (tid : Nat) : Option JavaMonitor :=
  match m.is_locked_by_thread tid with
  | some true =>
    match m.push_thread tid true with
    | some m2 => some { m2 with lock_count := 0 }
    | none => none
  | _ => none

/-- Loop body of `notify_one`: `while i < len` where `len` is
`waiters.len()` in the source (not `waiters_prio.len()`); indexing
`waiters_prio[i]` out of bounds is a panic (`none`).  The fuel is the
number of remaining iterations, `len - i`. -/
def notifyOneGo : Nat → List (Bool × Nat × Nat) → Nat → Option (List (Bool × Nat × Nat))
  | 0, prio, _ => some prio
  | n + 1, prio, i =>
    match prio[i]? with
    | none => none
    | some (false, tid, lc) => some (prio.set i (true, tid, lc))
    | some (true, _, _) => notifyOneGo n prio (i + 1)

def JavaMonitor.notify_one (m : JavaMonitor) (tid : Nat) : Option JavaMonitor :=
  match m.is_locked_by_thread tid with
  | some true =>
    (notifyOneGo m.waiters.length m.waiters_prio 0).map
      (fun p => { m with waiters_prio := p })
  | _ => none

/-- Loop body of `notify_all`: same (wrong) bound `waiters.len()`. -/
def notifyAllGo : Nat → List (Bool × Nat × Nat) → Nat → Option (List (Bool × Nat × Nat))
  | 0, prio, _ => some prio
  | n + 1, prio, i =>
    match prio[i]? with
    | none => none
    | some (_, tid, lc) => notifyAllGo n (prio.set i (true, tid, lc)) (i + 1)

def JavaMonitor.notify_all (m : JavaMonitor) (tid : Nat) : Option JavaMonitor :=
  match m.is_locked_by_thread tid with
  | some true =>
    (notifyAllGo m.waiters.length m.waiters_prio 0).map
      (fun p => { m with waiters_prio := p })
  | _ => none

/-- `lock`: the source tests `!is_locked_by_thread(tid)` and `fail!`s in
that case; otherwise `inc_lock()` and `owner = Some(tid)`. -/
def JavaMonitor.lock (m : JavaMonitor) (tid : Nat) : Option JavaMonitor :=
  match m.is_locked_by_thread tid with
  | some true => some { m with lock_count := m.lock_count + 1, owner := some tid }
  | _ => none

/-- `unlock`: `dec_lock()` which asserts `lock_count > 0`.  The source
never resets `owner` here. -/
def JavaMonitor.unlock (m : JavaMonitor) : Option JavaMonitor :=
  if m.lock_count > 0 then some { m with lock_count := m.lock_count - 1 }
  else none

/-! ### `object.rs` : `JavaObject`

A class reference (`JavaClassRef`) is opaque to every operation the
claims are about, so it is modelled by a numeric class id. -/

structure JavaObject where
  oid : Nat
  ref_count : Nat
  jclass : Nat
  fields : List Nat
  monitor : JavaMonitor
deriving DecidableEq, Repr

/-- `JavaObject::new`: the initial refcount for objects is 1, fields
start empty, the monitor starts fresh. -/
def JavaObject.new (jclass : Nat) (oid : Nat) : JavaObject :=
  { oid := oid, ref_count := 1, jclass := jclass, fields := [], monitor := JavaMonitor.new }

def JavaObject.intern_add_ref (o : JavaObject) : JavaObject :=
  { o with ref_count := o.ref_count + 1 }

/-- `intern_release`: asserts `ref_count >= 1`, decrements, and returns
whether the refcount is still nonzero. -/
def JavaObject.intern_release (o : JavaObject) : Option (Bool × JavaObject) :=
  if o.ref_count ≥ 1 then
    some (decide (o.ref_count - 1 ≠ 0), { o with ref_count := o.ref_count - 1 })
  else none

/-! ### `objectbroker.rs` : message types -/

inductive RequestObjectAccessType where
  | OBJECT_ACCESS_Normal
  | OBJECT_ACCESS_Monitor
  | OBJECT_ACCESS_MonitorPriority
deriving DecidableEq, Repr

inductive RemoteObjectOpMessage where
  | REMOTE_ADD_REF
  | REMOTE_RELEASE
  | REMOTE_WHO_OWNS
  | REMOTE_OWN (mode : RequestObjectAccessType)
  | REMOTE_DISOWN (obj : JavaObject) (receiver : Nat)
deriving DecidableEq, Repr

inductive RemoteThreadOpMessage where
  | THREAD_JOIN
  | THREAD_NOTIFY_TERMINATION
  | THREAD_SET_PRIORITY (prio : Int)
  | THREAD_SET_NAME (name : String)
deriving DecidableEq, Repr

inductive VMToBrokerControlMessage where
  | VM_TO_BROKER_DO_SHUTDOWN
  | VM_TO_BROKER_ACK_SHUTDOWN
deriving DecidableEq, Repr

/-- `ObjectBrokerMessage`.  The `Chan` payload of `OB_REGISTER` is
represented by the registering thread's id alone; the channel's
contents live in the broker's `thread_chans` table. -/
inductive ObjectBrokerMessage where
  | OB_REMOTE_OBJECT_OP (a : Nat) (b : Nat) (op : RemoteObjectOpMessage)
  | OB_REGISTER (a : Nat)
  | OB_UNREGISTER (a : Nat) (objects : List (Nat × JavaObject))
  | OB_THREAD_REMOTE_OP (a : Nat) (b : Nat) (op : RemoteThreadOpMessage)
  | OB_VM_TO_BROKER (op : VMToBrokerControlMessage)
  | OB_SHUTDOWN (a : Nat) (exit_code : Int)
deriving DecidableEq, Repr

/-- The reserved exit code for a VM-initiated shutdown. -/
def EXIT_CODE_VM_INITIATED_SHUTDOWN : Int := -150392

/-! ### `localheap.rs` : `LocalHeap` (the parts the claims need)

The global `ObjectIdCounter` is passed and returned explicitly, and the
message a method pushes into the broker channel is returned alongside
the updated heap. -/

structure LocalHeap where
  tid : Nat
  owned_objects : List (Nat × JavaObject)
deriving DecidableEq, Repr

/-- `LocalHeap::new_object`: draw a fresh id from the atomic counter
(`atomic_add` returns the previous value), assert it is not owned yet,
send `REMOTE_ADD_REF` for it to the broker, and insert a fresh
`JavaObject`.  Returns `(id, heap, counter, message)`. -/
def LocalHeap.new_object (h : LocalHeap) (counter : Nat) (jclass : Nat) :
    Option (Nat × LocalHeap × Nat × ObjectBrokerMessage) :=
  let id := counter
  if alContains h.owned_objects id then none
  else
    some (id,
      { h with owned_objects := alInsert h.owned_objects id (JavaObject.new jclass id) },
      counter + 1,
      ObjectBrokerMessage.OB_REMOTE_OBJECT_OP h.tid id RemoteObjectOpMessage.REMOTE_ADD_REF)

/-! ### `classpath.rs` : `ClassPath::new_from_string`

Strings are modelled as `List Char`.  `split_str(";")` with a one-char
separator and `str::trim` are embedded directly. -/

/-- `split_str(";")`: split on every semicolon, keeping empty segments
(`"a;;b"` has three segments, a trailing `;` yields a trailing empty
segment). -/
def splitSemi : List Char → List (List Char)
  | [] => [[]]
  | c :: rest =>
    if c = ';' then [] :: splitSemi rest
    else
      match splitSemi rest with
      | h :: t => (c :: h) :: t
      | [] => [[c]]

/-- Whitespace in the sense of `str::trim` (the claims only exercise
the ASCII subset). -/
def isWhitespaceChar (c : Char) : Bool :=
  c = ' ' || c = '\t' || c = '\n' || c = '\r'

def trimChars (l : List Char) : List Char :=
  ((l.dropWhile isWhitespaceChar).reverse.dropWhile isWhitespaceChar).reverse

/-- `ClassPath::new_from_string`: start from `["."]` and push every
segment that is nonempty after trimming, in order. -/
def ClassPath.new_from_string (invar : List Char) : List (List Char) :=
  (splitSemi invar).foldl
    (fun v s =>
      let t := trimChars s
      if t.length > 0 then v ++ [t] else v)
    [['.']]

/-- The path list as the spec describes it: split on `;`, trim each
segment, drop segments empty after trimming, keep order, prepend `"."`.
This definition follows the spec's words and is compared with
`ClassPath.new_from_string` (which follows the source). -/
def classPathSpecWords (invar : List Char) : List (List Char) :=
  ['.'] :: ((splitSemi invar).map trimChars).filter (fun t => t.length > 0)

/-! ### `classloader.rs` : the class table

Class names and class references are opaque to the waiter-notification
logic, so names are numeric keys and a loaded class is a numeric class
id.  A waiter channel is identified by a numeric channel id. -/

inductive JavaClassOrWaitQueue where
  | ClassLoaded (c : Nat)
  | ClassPending (chans : List Nat)
deriving DecidableEq, Repr

deriving instance DecidableEq for Except

/-- The source of a `JavaClassFutureRef`: either an already computed
value (`Future::from_value`) or the receiving end of a fresh one-shot
channel (`Future::from_port`). -/
inductive FutureSource where
  | fromValue (r : Except String Nat)
  | fromPort (chan : Nat)
deriving DecidableEq, Repr

/-- `ClassLoader::check_is_present_or_enqueue`: under the table lock,
if `Loaded` return a satisfied future; if `Pending` append a fresh
waiter channel (`freshChan`) and return a future on it; if absent
insert `Pending([])` and return `none` (the caller spawns the worker).
Returns the future (if any) and the updated table. -/
def check_is_present_or_enqueue (table : List (Nat × JavaClassOrWaitQueue))
    (name : Nat) (freshChan : Nat) :
    Option FutureSource × List (Nat × JavaClassOrWaitQueue) :=
  match alLookup table name with
  | some (.ClassLoaded c) => (some (.fromValue (.ok c)), table)
  | some (.ClassPending chans) =>
    (some (.fromPort freshChan),
     alInsert table name (.ClassPending (chans ++ [freshChan])))
  | none => (none, alInsert table name (.ClassPending []))

/-- `ClassLoader::register_class`: requires the entry to exist and be
`Pending` (anything else panics), sends `Ok(class)` to every waiter
channel, and replaces the entry by `Loaded(class)`.  Returns the new
table and the list of `(channel, result)` notifications sent. -/
def register_class (table : List (Nat × JavaClassOrWaitQueue)) (name : Nat) (c : Nat) :
    Option (List (Nat × JavaClassOrWaitQueue) × List (Nat × Except String Nat)) :=
  match alLookup table name with
  | some (.ClassPending queue) =>
    some (alInsert table name (.ClassLoaded c),
          queue.map (fun k => (k, Except.ok c)))
  | some (.ClassLoaded _) => none
  | none => none

/-- The worker task spawned by `ClassLoader::add_from_classfile` after
`check_is_present_or_enqueue` returned `None`.  Its input is the
outcome of `classpath.locate_and_read` followed by parsing
(`intern_add_from_classfile_bytes`), abstracted as
`none` (class file not found), `some (.error e)` (parse failure) or
`some (.ok c)` (a parsed class).  On any failure the worker only
produces an `Err` value for its own future; `register_class` (and with
it the waiter notification) runs only on success.  Returns the updated
table, the notifications sent to waiter channels, and the worker's own
future value. -/
def class_load_worker (table : List (Nat × JavaClassOrWaitQueue)) (name : Nat)
    (located : Option (Except String Nat)) :
    Option (List (Nat × JavaClassOrWaitQueue) × List (Nat × Except String Nat) ×
            Except String Nat) :=
  match located with
  | none => some (table, [], Except.error "failed to locate class file")
  | some (.error e) => some (table, [], Except.error e)
  | some (.ok c) =>
    match register_class table name c with
    | none => none
    | some (table2, sends) => some (table2, sends, Except.ok c)

/-- The waiter channels recorded in a table entry. -/
def pendingWaiters (table : List (Nat × JavaClassOrWaitQueue)) (name : Nat) : List Nat :=
  match alLookup table name with
  | some (.ClassPending chans) => chans
  | _ => []

/-! ### `def.rs` / `classloader.rs` : constant pool parsing

The byte reader is the list of remaining bytes (each a `Nat` below
256); a read past the end is an error, matching how the `result(...)`
wrapper in `intern_add_from_classfile_bytes` turns an io failure into
an `Err`.  `f32`/`f64`/`i32`/`i64` payloads are kept as their raw
big-endian bit patterns, which is all the pool invariants ever use. -/

abbrev Rdr := List Nat

def read_u8 : Rdr → Option (Nat × Rdr)
  | [] => none
  | b :: r => some (b, r)

def read_be_u16 : Rdr → Option (Nat × Rdr)
  | b0 :: b1 :: r => some (b0 * 256 + b1, r)
  | _ => none

def read_be_u32 : Rdr → Option (Nat × Rdr)
  | b0 :: b1 :: b2 :: b3 :: r =>
    some (((b0 * 256 + b1) * 256 + b2) * 256 + b3, r)
  | _ => none

def read_be_u64 : Rdr → Option (Nat × Rdr)
  | b0 :: b1 :: b2 :: b3 :: b4 :: b5 :: b6 :: b7 :: r =>
    some (((((((b0 * 256 + b1) * 256 + b2) * 256 + b3) * 256 + b4) * 256 + b5)
            * 256 + b6) * 256 + b7, r)
  | _ => none

def read_bytes : Nat → Rdr → Option (List Nat × Rdr)
  | 0, r => some ([], r)
  | _ + 1, [] => none
  | n + 1, b :: r =>
    match read_bytes n r with
    | some (bs, r2) => some (b :: bs, r2)
    | none => none

/-- `ConstantPoolTags` via its `FromPrimitive` instance: the valid tag
bytes and their meanings. -/
inductive ConstantPoolTags where
  | CONSTANT_class
  | CONSTANT_fieldref
  | CONSTANT_methodref
  | CONSTANT_ifacemethodref
  | CONSTANT_string
  | CONSTANT_integer
  | CONSTANT_float
  | CONSTANT_long
  | CONSTANT_double
  | CONSTANT_nameandtype
  | CONSTANT_utf8
  | CONSTANT_methodhandle
  | CONSTANT_methodtype
  | CONSTANT_invokedynamic
deriving DecidableEq, Repr

def tagFromU8 : Nat → Option ConstantPoolTags
  | 7 => some .CONSTANT_class
  | 9 => some .CONSTANT_fieldref
  | 10 => some .CONSTANT_methodref
  | 11 => some .CONSTANT_ifacemethodref
  | 8 => some .CONSTANT_string
  | 3 => some .CONSTANT_integer
  | 4 => some .CONSTANT_float
  | 5 => some .CONSTANT_long
  | 6 => some .CONSTANT_double
  | 12 => some .CONSTANT_nameandtype
  | 1 => some .CONSTANT_utf8
  | 15 => some .CONSTANT_methodhandle
  | 16 => some .CONSTANT_methodtype
  | 18 => some .CONSTANT_invokedynamic
  | _ => none

/-- `Constant` as in `def.rs`; a utf8 entry keeps its (validated) raw
bytes. -/
inductive Constant where
  | CONSTANT_class_info (i : Nat)
  | CONSTANT_fieldref_info (i1 : Nat) (i2 : Nat)
  | CONSTANT_methodref_info (i1 : Nat) (i2 : Nat)
  | CONSTANT_ifacemethodref_info (i1 : Nat) (i2 : Nat)
  | CONSTANT_string_info (i : Nat)
  | CONSTANT_integer_info (bits : Nat)
  | CONSTANT_float_info (bits : Nat)
  | CONSTANT_long_info (bits : Nat)
  | CONSTANT_double_info (bits : Nat)
  | CONSTANT_nameandtype_info (i1 : Nat) (i2 : Nat)
  | CONSTANT_utf8_info (bytes : List Nat)
  | CONSTANT_methodhandle_info (kind : Nat) (i : Nat)
  | CONSTANT_methodtype_info (i : Nat)
  | CONSTANT_invokedynamic_info (bootstrap : Nat) (i : Nat)
deriving DecidableEq, Repr

/-- The range check performed by the `cindex` closure: a cross
reference is rejected when it is 0 or not below `count`. -/
def cindexBad (count : Nat) (i : Nat) : Bool :=
  i = 0 || count ≤ i

def idxErrMsg (i : Nat) : String :=
  "constant pool index out of range: " ++ toString i

def eofMsg : String := "unexpected end-of-file or read error"

/-- Check the cross-reference indices of an entry the way the deferred
`err` variable does: every bad `cindex` read overwrites `err`, so the
reported message is the last bad index, but the entry is an error as
soon as any index is bad.  `idxs` is the list of indices in the order
they were read. -/
def checkIndices (count : Nat) (idxs : List Nat) : Option String :=
  idxs.foldl
    (fun acc i => if cindexBad count i then some (idxErrMsg i) else acc)
    none

/-- Standard UTF-8 validity (the model of `from_utf8_owned`); the fuel
is an upper bound on the byte count so the definition is structurally
recursive. -/
def utf8Cont (b : Nat) : Bool := 0x80 ≤ b && b ≤ 0xBF

def utf8ValidGo : Nat → List Nat → Bool
  | _, [] => true
  | 0, _ :: _ => false
  | f + 1, b :: r =>
    if b ≤ 0x7F then utf8ValidGo f r
    else if 0xC2 ≤ b && b ≤ 0xDF then
      match r with
      | c1 :: r2 => utf8Cont c1 && utf8ValidGo f r2
      | [] => false
    else if b = 0xE0 then
      match r with
      | c1 :: c2 :: r2 => (0xA0 ≤ c1 && c1 ≤ 0xBF) && utf8Cont c2 && utf8ValidGo f r2
      | _ => false
    else if (0xE1 ≤ b && b ≤ 0xEC) || b = 0xEE || b = 0xEF then
      match r with
      | c1 :: c2 :: r2 => utf8Cont c1 && utf8Cont c2 && utf8ValidGo f r2
      | _ => false
    else if b = 0xED then
      match r with
      | c1 :: c2 :: r2 => (0x80 ≤ c1 && c1 ≤ 0x9F) && utf8Cont c2 && utf8ValidGo f r2
      | _ => false
    else if b = 0xF0 then
      match r with
      | c1 :: c2 :: c3 :: r2 =>
        (0x90 ≤ c1 && c1 ≤ 0xBF) && utf8Cont c2 && utf8Cont c3 && utf8ValidGo f r2
      | _ => false
    else if 0xF1 ≤ b && b ≤ 0xF3 then
      match r with
      | c1 :: c2 :: c3 :: r2 =>
        utf8Cont c1 && utf8Cont c2 && utf8Cont c3 && utf8ValidGo f r2
      | _ => false
    else if b = 0xF4 then
      match r with
      | c1 :: c2 :: c3 :: r2 =>
        (0x80 ≤ c1 && c1 ≤ 0x8F) && utf8Cont c2 && utf8Cont c3 && utf8ValidGo f r2
      | _ => false
    else false

def utf8Valid (l : List Nat) : Bool := utf8ValidGo l.length l

/-- `ClassLoader::read_cpool_entry_body`: reads the body of one pool
entry for the given tag.  Returns the entry, the extra slot count
(`skip`, 1 for long/double) and the remaining bytes. -/
def read_cpool_entry_body (tag : ConstantPoolTags) (r : Rdr) (count : Nat) :
    Except String (Constant × Nat × Rdr) :=
  match tag with
  | .CONSTANT_class =>
    match read_be_u16 r with
    | none => .error eofMsg
    | some (i, r1) =>
      match checkIndices count [i] with
      | some e => .error e
      | none => .ok (.CONSTANT_class_info i, 0, r1)
  | .CONSTANT_fieldref =>
    match read_be_u16 r with
    | none => .error eofMsg
    | some (i1, r1) =>
      match read_be_u16 r1 with
      | none => .error eofMsg
      | some (i2, r2) =>
        match checkIndices count [i1, i2] with
        | some e => .error e
        | none => .ok (.CONSTANT_fieldref_info i1 i2, 0, r2)
  | .CONSTANT_methodref =>
    match read_be_u16 r with
    | none => .error eofMsg
    | some (i1, r1) =>
      match read_be_u16 r1 with
      | none => .error eofMsg
      | some (i2, r2) =>
        match checkIndices count [i1, i2] with
        | some e => .error e
        | none => .ok (.CONSTANT_methodref_info i1 i2, 0, r2)
  | .CONSTANT_ifacemethodref =>
    match read_be_u16 r with
    | none => .error eofMsg
    | some (i1, r1) =>
      match read_be_u16 r1 with
      | none => .error eofMsg
      | some (i2, r2) =>
        match checkIndices count [i1, i2] with
        | some e => .error e
        | none => .ok (.CONSTANT_ifacemethodref_info i1 i2, 0, r2)
  | .CONSTANT_string =>
    match read_be_u16 r with
    | none => .error eofMsg
    | some (i, r1) =>
      match checkIndices count [i] with
      | some e => .error e
      | none => .ok (.CONSTANT_string_info i, 0, r1)
  | .CONSTANT_integer =>
    match read_be_u32 r with
    | none => .error eofMsg
    | some (v, r1) => .ok (.CONSTANT_integer_info v, 0, r1)
  | .CONSTANT_float =>
    match read_be_u32 r with
    | none => .error eofMsg
    | some (v, r1) => .ok (.CONSTANT_float_info v, 0, r1)
  | .CONSTANT_long =>
    match read_be_u64 r with
    | none => .error eofMsg
    | some (v, r1) => .ok (.CONSTANT_long_info v, 1, r1)
  | .CONSTANT_double =>
    match read_be_u64 r with
    | none => .error eofMsg
    | some (v, r1) => .ok (.CONSTANT_double_info v, 1, r1)
  | .CONSTANT_nameandtype =>
    match read_be_u16 r with
    | none => .error eofMsg
    | some (i1, r1) =>
      match read_be_u16 r1 with
      | none => .error eofMsg
      | some (i2, r2) =>
        match checkIndices count [i1, i2] with
        | some e => .error e
        | none => .ok (.CONSTANT_nameandtype_info i1 i2, 0, r2)
  | .CONSTANT_utf8 =>
    match read_be_u16 r with
    | none => .error eofMsg
    | some (len, r1) =>
      match read_bytes len r1 with
      | none => .error eofMsg
      | some (raw, r2) =>
        if utf8Valid raw then .ok (.CONSTANT_utf8_info raw, 0, r2)
        else .error "constant pool entry is not a valid UTF8 string"
  | .CONSTANT_methodhandle =>
    match read_u8 r with
    | none => .error eofMsg
    | some (kind, r1) =>
      match read_be_u16 r1 with
      | none => .error eofMsg
      | some (i, r2) =>
        match checkIndices count [i] with
        | some e => .error e
        | none => .ok (.CONSTANT_methodhandle_info kind i, 0, r2)
  | .CONSTANT_methodtype =>
    match read_be_u16 r with
    | none => .error eofMsg
    | some (i, r1) =>
      match checkIndices count [i] with
      | some e => .error e
      | none => .ok (.CONSTANT_methodtype_info i, 0, r1)
  | .CONSTANT_invokedynamic =>
    match read_be_u16 r with
    | none => .error eofMsg
    | some (bootstrap, r1) =>
      match read_be_u16 r1 with
      | none => .error eofMsg
      | some (i, r2) =>
        match checkIndices count [i] with
        | some e => .error e
        | none => .ok (.CONSTANT_invokedynamic_info bootstrap i, 0, r2)

/-- The `while i < cpool_count` loop of `load_constant_pool`: read a
tag byte, map it through `FromPrimitive`, parse the entry body, append
the entry and advance `i` by `skip + 1`.  The fuel bounds the number of
iterations (`cpool_count` always suffices since `i` grows each turn). -/
def load_cpool_go : Nat → Nat → Nat → List Constant → Rdr →
    Except String (List Constant × Rdr)
  | 0, count, i, acc, r =>
    if i < count then .error "out of fuel" else .ok (acc, r)
  | fuel + 1, count, i, acc, r =>
    if i < count then
      match read_u8 r with
      | none => .error eofMsg
      | some (tag, r1) =>
        match tagFromU8 tag with
        | none => .error ("constant pool tag not recognized: " ++ toString tag)
        | some t =>
          match read_cpool_entry_body t r1 count with
          | .error e => .error e
          | .ok (centry, skip, r2) =>
            load_cpool_go fuel count (i + skip + 1) (acc ++ [centry]) r2
    else .ok (acc, r)

/-- `ClassLoader::load_constant_pool`: read `cpool_count`, reject 0,
then run the entry loop starting at index 1. -/
def load_constant_pool (r : Rdr) : Except String (List Constant × Rdr) :=
  match read_be_u16 r with
  | none => .error eofMsg
  | some (cpool_count, r1) =>
    if cpool_count = 0 then .error "invalid constant pool size"
    else load_cpool_go cpool_count cpool_count 1 [] r1

/-- Every cross-reference index stored in a pool entry lies in
`[1, count)`. -/
def constantIndicesInRange (count : Nat) : Constant → Prop
  | .CONSTANT_class_info i => 1 ≤ i ∧ i < count
  | .CONSTANT_fieldref_info i1 i2 => (1 ≤ i1 ∧ i1 < count) ∧ (1 ≤ i2 ∧ i2 < count)
  | .CONSTANT_methodref_info i1 i2 => (1 ≤ i1 ∧ i1 < count) ∧ (1 ≤ i2 ∧ i2 < count)
  | .CONSTANT_ifacemethodref_info i1 i2 => (1 ≤ i1 ∧ i1 < count) ∧ (1 ≤ i2 ∧ i2 < count)
  | .CONSTANT_string_info i => 1 ≤ i ∧ i < count
  | .CONSTANT_integer_info _ => True
  | .CONSTANT_float_info _ => True
  | .CONSTANT_long_info _ => True
  | .CONSTANT_double_info _ => True
  | .CONSTANT_nameandtype_info i1 i2 => (1 ≤ i1 ∧ i1 < count) ∧ (1 ≤ i2 ∧ i2 < count)
  | .CONSTANT_utf8_info _ => True
  | .CONSTANT_methodhandle_info _ i => 1 ≤ i ∧ i < count
  | .CONSTANT_methodtype_info i => 1 ≤ i ∧ i < count
  | .CONSTANT_invokedynamic_info _ i => 1 ≤ i ∧ i < count

/-! ### `thread.rs` : the task body of `ThreadContext::execute`

Only the state the task body touches is modelled: the thread id, the
`vm_was_shutdown` flag, the local heap, and the trace of messages sent
over the broker channel. -/

structure ThreadContext where
  tid : Nat
  vm_was_shutdown : Bool
  heap : LocalHeap
  sent : List ObjectBrokerMessage
deriving DecidableEq, Repr

/-- `ThreadContext::die`: unwrap the heap's owned objects and send
`OB_UNREGISTER(tid, objects)`.  The result is the complete send trace
of the terminated task. -/
def ThreadContext.die (c : ThreadContext) : List ObjectBrokerMessage :=
  c.sent ++ [ObjectBrokerMessage.OB_UNREGISTER c.tid c.heap.owned_objects]

/-- `ThreadContext::die_exception`: the body is a `// TODO` stub; it
sends nothing, so the trace of the task is unchanged. -/
def ThreadContext.die_exception (c : ThreadContext) : List ObjectBrokerMessage :=
  c.sent

/-- `ThreadContext::op`: an empty stub in the source. -/
def ThreadContext.op (c : ThreadContext) : ThreadContext := c

/-- The `loop { inner.op(); if inner.vm_was_shutdown { break; } }`
dispatch loop followed by `inner.die()`.  `none` models a run that does
not terminate within the fuel. -/
def execLoop : Nat → ThreadContext → Option (List ObjectBrokerMessage)
  | 0, _ => none
  | fuel + 1, c =>
    let c2 := ThreadContext.op c
    if c2.vm_was_shutdown then some (ThreadContext.die c2)
    else execLoop fuel c2

/-- The spawned body of `ThreadContext::execute`: await the startup
class; on `Err` raise a synthetic `ClassNotFoundException`
(`die_exception`) and `return`; on `Ok` run the dispatch loop and then
`die()`.  The result is the task's complete send trace (`none` for a
non-terminating run). -/
def ThreadContext.execute_task (loadResult : Except String Nat) (fuel : Nat)
    (c : ThreadContext) : Option (List ObjectBrokerMessage) :=
  match loadResult with
  | .error _ => some (ThreadContext.die_exception c)
  | .ok _ => execLoop fuel c

def isUnregisterMsg : ObjectBrokerMessage → Bool
  | .OB_UNREGISTER _ _ => true
  | _ => false

/-! ### `threadmanager.rs` : `ThreadManager` -/

inductive ThreadManagerState where
  | TMS_NoThreadSeenYet
  | TMS_Running
  | TMS_AllNonDaemonsDead
deriving DecidableEq, Repr

structure GlobThreadInfo where
  tid : Nat
  gid : Nat
  name : String
  priority : Int
  daemon : Bool
deriving DecidableEq, Repr

structure GlobThreadGroupInfo where
  gid : Nat
  parent_gid : Option Nat
deriving DecidableEq, Repr

structure ThreadManager where
  groups : List (Nat × GlobThreadGroupInfo)
  threads : List (Nat × GlobThreadInfo)
  alive_nondaemon_count : Nat
  state : ThreadManagerState
  stopped_threads : List GlobThreadInfo
  stopped_groups : List GlobThreadGroupInfo
deriving DecidableEq, Repr

/-- `ThreadManager::new`: the default thread group 0 is always
present. -/
def ThreadManager.new : ThreadManager :=
  { groups := [(0, { gid := 0, parent_gid := none })]
    threads := []
    alive_nondaemon_count := 0
    state := .TMS_NoThreadSeenYet
    stopped_threads := []
    stopped_groups := [] }

def ThreadManager.get_state (m : ThreadManager) : ThreadManagerState := m.state

/-- `add_thread`: asserts the tid is fresh and the group exists; new
threads are non-daemon with empty name and priority 0; the state
becomes `Running`. -/
def ThreadManager.add_thread (m : ThreadManager) (tid : Nat) (gid : Nat) :
    Option ThreadManager :=
  if alContains m.threads tid then none
  else if alContains m.groups gid then
    some { m with
      threads := alInsert m.threads tid
        { tid := tid, gid := gid, name := "", priority := 0, daemon := false }
      alive_nondaemon_count := m.alive_nondaemon_count + 1
      state := .TMS_Running }
  else none

/-- `remove_thread`: asserts the tid is present, moves the record to
`stopped_threads`, decrements the non-daemon counter for non-daemon
threads, and recomputes the state. -/
def ThreadManager.remove_thread (m : ThreadManager) (tid : Nat) :
    Option ThreadManager :=
  match alLookup m.threads tid with
  | none => none
  | some t =>
    let cnt := if t.daemon then m.alive_nondaemon_count
               else m.alive_nondaemon_count - 1
    some { m with
      threads := alRemove m.threads tid
      alive_nondaemon_count := cnt
      stopped_threads := m.stopped_threads ++ [t]
      state := if cnt = 0 then .TMS_AllNonDaemonsDead else .TMS_Running }

/-- `process_message`: `THREAD_NOTIFY_TERMINATION` is a `fail!`; all
other thread ops are currently ignored. -/
def ThreadManager.process_message (m : ThreadManager) (_src : Nat) (_dst : Nat)
    (op : RemoteThreadOpMessage) : Option ThreadManager :=
  match op with
  | .THREAD_NOTIFY_TERMINATION => none
  | _ => some m

/-! ### `objectbroker.rs` : `ObjectBroker` -/

inductive ShutdownState where
  | NOT_IN_SHUTDOWN
  | SHUTTING_DOWN
  | SHUT_DOWN
deriving DecidableEq, Repr

/-- The broker's state.  `thread_chans` maps a registered tid to the
messages sent into its channel; `vm_chan` holds the exit codes of
`BROKER_TO_VM_DID_SHUTDOWN` messages sent to the VM, in order;
`sent_log` is an append-only trace of every thread-channel send (id of
the channel, message), used to state ordering and exactly-once
properties. -/
structure ObjectBroker where
  threads : ThreadManager
  objects_with_owners : List (Nat × Nat)
  objects_owned : List (Nat × JavaObject)
  thread_chans : List (Nat × List ObjectBrokerMessage)
  waiting_shelf : List (Nat × List ObjectBrokerMessage)
  shutdown_state : ShutdownState
  vm_chan : List Int
  sent_log : List (Nat × ObjectBrokerMessage)
deriving DecidableEq, Repr

/-- `thread_chans.get(&tid).send(msg)`: a panic (`none`) if the channel
is not registered; otherwise append to the channel and the trace. -/
def ObjectBroker.sendTo (ob : ObjectBroker) (tid : Nat) (msg : ObjectBrokerMessage) :
    Option ObjectBroker :=
  match alLookup ob.thread_chans tid with
  | none => none
  | some q =>
    some { ob with
      thread_chans := alInsert ob.thread_chans tid (q ++ [msg])
      sent_log := ob.sent_log ++ [(tid, msg)] }

/-- The non-shelved, non-`DISOWN` tail of `handle_object_op` (the inner
`match op` of the source). -/
def handle_object_op_main (ob : ObjectBroker) (a : Nat) (b : Nat)
    (op : RemoteObjectOpMessage) : Option ObjectBroker :=
  match op with
  | .REMOTE_ADD_REF =>
    match alLookup ob.objects_with_owners b with
    | some owner =>
      if owner = 0 then
        match alLookup ob.objects_owned b with
        | none => none
        | some o =>
          some { ob with
            objects_owned := alInsert ob.objects_owned b o.intern_add_ref
            objects_with_owners := alInsert ob.objects_with_owners b a }
      else ObjectBroker.sendTo ob owner (.OB_REMOTE_OBJECT_OP a b .REMOTE_ADD_REF)
    | none =>
      some { ob with objects_with_owners := alInsert ob.objects_with_owners b a }
  | .REMOTE_RELEASE =>
    match alLookup ob.objects_with_owners b with
    | none => none
    | some owner =>
      if owner = a then
        some { ob with objects_with_owners := alRemove ob.objects_with_owners b }
      else if owner = 0 then
        match alLookup ob.objects_owned b with
        | none => none
        | some o =>
          match o.intern_release with
          | none => none
          | some (nonzero, o2) =>
            if nonzero then
              some { ob with objects_owned := alInsert ob.objects_owned b o2 }
            else
              some { ob with objects_owned := alRemove ob.objects_owned b }
      else ObjectBroker.sendTo ob owner (.OB_REMOTE_OBJECT_OP a b .REMOTE_RELEASE)
  | .REMOTE_WHO_OWNS =>
    match alLookup ob.objects_with_owners b with
    | none => none
    | some owner =>
      ObjectBroker.sendTo ob a (.OB_REMOTE_OBJECT_OP owner b .REMOTE_WHO_OWNS)
  | .REMOTE_OWN rmode =>
    match alLookup ob.objects_with_owners b with
    | none => none
    | some owner =>
      if owner = a then none
      else if owner = 0 then
        let ob1 :=
          { ob with objects_with_owners := alInsert ob.objects_with_owners b a }
        match alLookup ob1.objects_owned b with
        | none => none
        | some o =>
          let ob2 := { ob1 with objects_owned := alRemove ob1.objects_owned b }
          ObjectBroker.sendTo ob2 a (.OB_REMOTE_OBJECT_OP 0 b (.REMOTE_DISOWN o a))
      else
        match ObjectBroker.sendTo ob owner (.OB_REMOTE_OBJECT_OP a b (.REMOTE_OWN rmode)) with
        | none => none
        | some ob1 =>
          some { ob1 with waiting_shelf := alInsert ob1.waiting_shelf b [] }
  | .REMOTE_DISOWN _ _ => none

mutual

/-- `ObjectBroker::handle_object_op`.  `REMOTE_WHO_OWNS` bypasses the
shelf; `REMOTE_DISOWN` asserts the sender owns the object, updates the
owner map, forwards the message to the receiver, then pops the shelf
entry (an `unwrap` — a `Disown` without a shelf entry panics) and
replays its messages through the dispatcher; every other op is shelved
when a shelf entry for the object exists. -/
def handle_object_op : Nat → ObjectBroker → Nat → Nat → RemoteObjectOpMessage →
    Option ObjectBroker
  | 0, _, _, _, _ => none
  | fuel + 1, ob, a, b, op =>
    match op with
    | .REMOTE_WHO_OWNS => handle_object_op_main ob a b .REMOTE_WHO_OWNS
    | .REMOTE_DISOWN obj receiver =>
      match alLookup ob.objects_with_owners b with
      | none => none
      | some owner =>
        if owner = a then
          let ob1 :=
            { ob with objects_with_owners := alInsert ob.objects_with_owners b receiver }
          match ObjectBroker.sendTo ob1 receiver
              (.OB_REMOTE_OBJECT_OP a b (.REMOTE_DISOWN obj receiver)) with
          | none => none
          | some ob2 =>
            match alLookup ob2.waiting_shelf b with
            | none => none
            | some sh =>
              drain_shelf fuel
                { ob2 with waiting_shelf := alRemove ob2.waiting_shelf b } sh
        else none
    | _ =>
      match alLookup ob.waiting_shelf b with
      | some v =>
        some { ob with
          waiting_shelf := alInsert ob.waiting_shelf b
            (v ++ [.OB_REMOTE_OBJECT_OP a b op]) }
      | none => handle_object_op_main ob a b op

/-- The `while sh.len() > 0` replay loop after a `Disown`: shift the
shelved messages in FIFO order and re-enter `handle_object_op` for each
(`fail!` for any non-object-op message on the shelf). -/
def drain_shelf : Nat → ObjectBroker → List ObjectBrokerMessage → Option ObjectBroker
  | _, ob, [] => some ob
  | 0, _, _ :: _ => none
  | fuel + 1, ob, m :: rest =>
    match m with
    | .OB_REMOTE_OBJECT_OP a b op =>
      match handle_object_op fuel ob a b op with
      | none => none
      | some ob2 => drain_shelf fuel ob2 rest
    | _ => none

end

/-- `shutdown_protocol`'s broadcast: send `OB_SHUTDOWN(0, code)` to
every registered thread channel. -/
def ObjectBroker.broadcast_shutdown (ob : ObjectBroker) (code : Int) : ObjectBroker :=
  { ob with
    thread_chans := ob.thread_chans.map
      (fun p => (p.1, p.2 ++ [ObjectBrokerMessage.OB_SHUTDOWN 0 code]))
    sent_log := ob.sent_log ++ ob.thread_chans.map
      (fun p => (p.1, ObjectBrokerMessage.OB_SHUTDOWN 0 code)) }

/-- The `for (a,b) in in_objects.move_iter()` loop of `OB_UNREGISTER`:
the broker takes ownership of every transmitted object, rewriting its
owner-map entry to 0 (`get_mut` panics when the oid is unknown). -/
def ObjectBroker.own_all (ob : ObjectBroker) :
    List (Nat × JavaObject) → Option ObjectBroker
  | [] => some ob
  | (oid, o) :: rest =>
    if alContains ob.objects_with_owners oid then
      ObjectBroker.own_all
        { ob with
          objects_owned := alInsert ob.objects_owned oid o
          objects_with_owners := alInsert ob.objects_with_owners oid 0 }
        rest
    else none

/-- The debug-build check that an unregistered thread owns no objects
(`verify_thread_owns_no_objects`). -/
def ObjectBroker.verify_thread_owns_no_objects (ob : ObjectBroker) (a : Nat) : Bool :=
  ob.objects_with_owners.all (fun p => p.2 ≠ a)

mutual

/-- `ObjectBroker::handle_message`: receive one message from the input
queue and dispatch it.  Returns the new broker state, the remaining
input, and the `bool` the source returns (`false` only on
`VM_TO_BROKER_ACK_SHUTDOWN`).  An empty input queue means `recv()`
blocks forever, modelled as `none`. -/
def handle_message : Nat → ObjectBroker → List ObjectBrokerMessage →
    Option (ObjectBroker × List ObjectBrokerMessage × Bool)
  | 0, _, _ => none
  | fuel + 1, ob, input =>
    match input with
    | [] => none
    | msg :: rest =>
      match msg with
      | .OB_REMOTE_OBJECT_OP a b op =>
        match handle_object_op fuel ob a b op with
        | none => none
        | some ob2 => some (ob2, rest, true)
      | .OB_THREAD_REMOTE_OP a b op =>
        match ob.threads.process_message a b op with
        | none => none
        | some tm => some ({ ob with threads := tm }, rest, true)
      | .OB_VM_TO_BROKER .VM_TO_BROKER_DO_SHUTDOWN =>
        match shutdown_protocol fuel ob EXIT_CODE_VM_INITIATED_SHUTDOWN rest with
        | none => none
        | some (ob2, rest2) => some (ob2, rest2, true)
      | .OB_VM_TO_BROKER .VM_TO_BROKER_ACK_SHUTDOWN =>
        if ob.shutdown_state = .SHUT_DOWN then some (ob, rest, false) else none
      | .OB_SHUTDOWN _ code =>
        match shutdown_protocol fuel ob code rest with
        | none => none
        | some (ob2, rest2) => some (ob2, rest2, true)
      | .OB_REGISTER a =>
        if a = 0 then none
        else if alContains ob.thread_chans a then none
        else
          let ob1 := { ob with thread_chans := alInsert ob.thread_chans a [] }
          match ob1.threads.add_thread a 0 with
          | none => none
          | some tm =>
            if tm.get_state = .TMS_Running then
              some ({ ob1 with threads := tm }, rest, true)
            else none
      | .OB_UNREGISTER a objs =>
        if alContains ob.thread_chans a then
          let ob1 := { ob with thread_chans := alRemove ob.thread_chans a }
          match ob1.own_all objs with
          | none => none
          | some ob2 =>
            if ob2.verify_thread_owns_no_objects a then
              match ob2.threads.remove_thread a with
              | none => none
              | some tm =>
                let ob3 := { ob2 with threads := tm }
                match tm.get_state with
                | .TMS_NoThreadSeenYet => none
                | .TMS_Running => some (ob3, rest, true)
                | .TMS_AllNonDaemonsDead =>
                  match shutdown_protocol fuel ob3 0 rest with
                  | none => none
                  | some (ob4, rest2) => some (ob4, rest2, true)
            else none
        else none

/-- `ObjectBroker::shutdown_protocol`: a no-op when a shutdown is
already in progress or complete; otherwise enter `SHUTTING_DOWN`,
broadcast `OB_SHUTDOWN(0, exit_code)` to every registered channel,
drive the dispatcher until every thread has unregistered, then enter
`SHUT_DOWN` and send `BROKER_TO_VM_DID_SHUTDOWN(exit_code)`. -/
def shutdown_protocol : Nat → ObjectBroker → Int → List ObjectBrokerMessage →
    Option (ObjectBroker × List ObjectBrokerMessage)
  | 0, ob, _, input =>
    if ob.shutdown_state ≠ .NOT_IN_SHUTDOWN then some (ob, input) else none
  | fuel + 1, ob, exit_code, input =>
    if ob.shutdown_state ≠ .NOT_IN_SHUTDOWN then some (ob, input)
    else
      let ob1 := { ob with shutdown_state := ShutdownState.SHUTTING_DOWN }
      let ob2 := ob1.broadcast_shutdown exit_code
      match wait_unregister fuel ob2 input with
      | none => none
      | some (ob3, input2) =>
        some ({ ob3 with
                 shutdown_state := ShutdownState.SHUT_DOWN
                 vm_chan := ob3.vm_chan ++ [exit_code] },
              input2)

/-- The `while self.thread_chans.len() > 0` loop of
`shutdown_protocol`; the `assert_eq!(res, true)` makes a `false` return
from `handle_message` a panic. -/
def wait_unregister : Nat → ObjectBroker → List ObjectBrokerMessage →
    Option (ObjectBroker × List ObjectBrokerMessage)
  | 0, ob, input =>
    if ob.thread_chans = [] then some (ob, input) else none
  | fuel + 1, ob, input =>
    if ob.thread_chans = [] then some (ob, input)
    else
      match handle_message fuel ob input with
      | none => none
      | some (ob2, input2, cont) =>
        if cont then wait_unregister fuel ob2 input2 else none

end

/-! ### Derived notions used by the theorems -/

/-- The monitor states reachable from `JavaMonitor::new` by successful
(i.e. non-panicking) monitor operations.  Since a panicking call kills
the task and produces no state, only `some` results generate new
states. -/
inductive MonReachable : JavaMonitor → Prop where
  | new : MonReachable JavaMonitor.new
  | lock : ∀ {m m2 : JavaMonitor} {tid : Nat},
      MonReachable m → JavaMonitor.lock m tid = some m2 → MonReachable m2
  | unlock : ∀ {m m2 : JavaMonitor},
      MonReachable m → JavaMonitor.unlock m = some m2 → MonReachable m2
  | push_thread : ∀ {m m2 : JavaMonitor} {tid : Nat} {is_notify : Bool},
      MonReachable m → JavaMonitor.push_thread m tid is_notify = some m2 →
      MonReachable m2
  | wait_noblock : ∀ {m m2 : JavaMonitor} {tid : Nat},
      MonReachable m → JavaMonitor.wait_noblock m tid = some m2 → MonReachable m2
  | notify_one : ∀ {m m2 : JavaMonitor} {tid : Nat},
      MonReachable m → JavaMonitor.notify_one m tid = some m2 → MonReachable m2
  | notify_all : ∀ {m m2 : JavaMonitor} {tid : Nat},
      MonReachable m → JavaMonitor.notify_all m tid = some m2 → MonReachable m2
  | pop_ready_thread : ∀ {m m2 : JavaMonitor} {r : Option Nat},
      MonReachable m → JavaMonitor.pop_ready_thread m = some (r, m2) →
      MonReachable m2

/-- In `waiters_prio`, every notified entry precedes every un-notified
one: whenever a later entry is notified, so is every earlier entry. -/
def notifiedPrecede (l : List (Bool × Nat × Nat)) : Prop :=
  ∀ i j (hi : i < l.length) (hj : j < l.length), i ≤ j →
    (l.get ⟨j, hj⟩).1 = true → (l.get ⟨i, hi⟩).1 = true

/-- The `OB_SHUTDOWN` entries of a channel-send trace, as
`(channel, src, exit_code)` triples. -/
def shutdownSends (l : List (Nat × ObjectBrokerMessage)) : List (Nat × Nat × Int) :=
  l.filterMap (fun p =>
    match p.2 with
    | .OB_SHUTDOWN s c => some (p.1, s, c)
    | _ => none)

/-- A broker step preserves the shutdown-related observables: the
shutdown state, the messages sent to the VM, and the `OB_SHUTDOWN`
entries of the send trace. -/
def ObsPreserved (ob ob2 : ObjectBroker) : Prop :=
  ob2.shutdown_state = ob.shutdown_state
  ∧ ob2.vm_chan = ob.vm_chan
  ∧ shutdownSends ob2.sent_log = shutdownSends ob.sent_log

/-! ### Concrete sample states used by the witnesses -/

/-- A monitor with one outside waiter, reached from `new` by
`push_thread 5 false`. -/
def monOutsideWaiter : JavaMonitor :=
  { lock_count := 0, owner := none, waiters := [5], waiters_prio := [] }

/-- A thread manager with two live non-daemon threads 1 and 2. -/
def tmTwoThreads : ThreadManager :=
  { groups := [(0, { gid := 0, parent_gid := none })]
    threads := [(1, { tid := 1, gid := 0, name := "", priority := 0, daemon := false }),
                (2, { tid := 2, gid := 0, name := "", priority := 0, daemon := false })]
    alive_nondaemon_count := 2
    state := .TMS_Running
    stopped_threads := []
    stopped_groups := [] }

/-- A broker in which thread 1 owns object 7 and no transfer is in
flight. -/
def obQuiet : ObjectBroker :=
  { threads := tmTwoThreads
    objects_with_owners := [(7, 1)]
    objects_owned := []
    thread_chans := [(1, []), (2, [])]
    waiting_shelf := []
    shutdown_state := .NOT_IN_SHUTDOWN
    vm_chan := []
    sent_log := [] }

/-- A broker in which object 7 is mid-transfer (shelf entry present)
with one already shelved message. -/
def obInFlight : ObjectBroker :=
  { threads := tmTwoThreads
    objects_with_owners := [(7, 1)]
    objects_owned := []
    thread_chans := [(1, []), (2, [])]
    waiting_shelf := [(7, [.OB_REMOTE_OBJECT_OP 1 7 .REMOTE_ADD_REF])]
    shutdown_state := .NOT_IN_SHUTDOWN
    vm_chan := []
    sent_log := [] }

/-- The input queue in which both threads unregister, used to drive the
shutdown protocol to completion. -/
def inputBothUnregister : List ObjectBrokerMessage :=
  [.OB_UNREGISTER 1 [], .OB_UNREGISTER 2 []]

/-- A broker with two registered object-free threads, not yet shutting
down. -/
def obClean : ObjectBroker :=
  { threads := tmTwoThreads
    objects_with_owners := []
    objects_owned := []
    thread_chans := [(1, []), (2, [])]
    waiting_shelf := []
    shutdown_state := .NOT_IN_SHUTDOWN
    vm_chan := []
    sent_log := [] }

/-! ## Theorems -/

/-! ### Association list lemmas -/

theorem alLookup_alInsert_self {α : Type} (l : List (Nat × α)) (k : Nat) (v : α) :
    alLookup (alInsert l k v) k = some v := by
  induction l with
  | nil => simp [alInsert, alLookup]
  | cons p l ih =>
    obtain ⟨k2, v2⟩ := p
    by_cases h : k2 = k
    · simp [alInsert, alLookup, h]
    · simp [alInsert, alLookup, h, ih]

/-! ### C9 : classpath splitting -/

theorem classpath_foldl_step (ls : List (List Char)) (acc : List (List Char)) :
    ls.foldl
        (fun v s =>
          let t := trimChars s
          if t.length > 0 then v ++ [t] else v) acc
      = acc ++ (ls.map trimChars).filter (fun t => t.length > 0) := by
  induction ls generalizing acc with
  | nil => simp
  | cons s ls ih =>
    simp only [List.foldl_cons, List.map_cons, List.filter_cons]
    by_cases h : (trimChars s).length > 0
    · rw [ih]
      simp [h]
    · rw [ih]
      simp [h]

/-- C9: `ClassPath::new_from_string` splits on `;`, trims every
segment, drops segments that are empty after trimming, keeps the rest
in order and prepends `"."`; in particular on `"~/a; /b;dir ;"` it
yields `[".", "~/a", "/b", "dir"]`. -/
theorem classpath_new_from_string_correct :
    (∀ s : List Char, ClassPath.new_from_string s = classPathSpecWords s)
    ∧ ClassPath.new_from_string ("~/a; /b;dir ;".data)
        = [".".data, "~/a".data, "/b".data, "dir".data] := by
  constructor
  · intro s
    unfold ClassPath.new_from_string classPathSpecWords
    rw [classpath_foldl_step]
    rfl
  · decide

/-! ### C10 : reference counting -/

/-- C10: an object created through `LocalHeap::new_object` starts with
refcount exactly 1, `intern_add_ref` adds exactly 1, and (given a
refcount of at least 1) `intern_release` subtracts exactly 1 and
returns `false` exactly when the count reaches 0. -/
theorem refcount_lifecycle :
    (∀ h counter jclass id h2 c2 msg,
        LocalHeap.new_object h counter jclass = some (id, h2, c2, msg) →
        alLookup h2.owned_objects id = some (JavaObject.new jclass id)
          ∧ (JavaObject.new jclass id).ref_count = 1)
    ∧ (∀ o : JavaObject, (JavaObject.intern_add_ref o).ref_count = o.ref_count + 1)
    ∧ (∀ o : JavaObject, 1 ≤ o.ref_count →
        ∃ b o2, JavaObject.intern_release o = some (b, o2)
          ∧ o2.ref_count = o.ref_count - 1
          ∧ (b = false ↔ o2.ref_count = 0)) := by
  refine ⟨?_, ?_, ?_⟩
  · intro h counter jclass id h2 c2 msg hm
    unfold LocalHeap.new_object at hm
    by_cases hc : alContains h.owned_objects counter
    · simp [hc] at hm
    · simp [hc] at hm
      obtain ⟨hid, hh2, _, _⟩ := hm
      subst hid
      subst hh2
      exact ⟨alLookup_alInsert_self _ _ _, rfl⟩
  · intro o
    rfl
  · intro o ho
    unfold JavaObject.intern_release
    rw [if_pos ho]
    refine ⟨_, _, rfl, rfl, ?_⟩
    simp

theorem refcount_lifecycle_witness :
    (LocalHeap.new_object { tid := 3, owned_objects := [] } 0 42
        = some (0,
            { tid := 3,
              owned_objects := [(0, JavaObject.new 42 0)] },
            1,
            .OB_REMOTE_OBJECT_OP 3 0 .REMOTE_ADD_REF)
      ∧ alLookup [(0, JavaObject.new 42 0)] 0 = some (JavaObject.new 42 0))
    ∧ (1 ≤ (JavaObject.new 42 0).ref_count
      ∧ ∃ b o2, JavaObject.intern_release (JavaObject.new 42 0) = some (b, o2)
          ∧ o2.ref_count = (JavaObject.new 42 0).ref_count - 1
          ∧ (b = false ↔ o2.ref_count = 0)) :=
  ⟨⟨by decide,
    ((refcount_lifecycle.1) { tid := 3, owned_objects := [] } 0 42 0
        { tid := 3, owned_objects := [(0, JavaObject.new 42 0)] } 1
        (.OB_REMOTE_OBJECT_OP 3 0 .REMOTE_ADD_REF) (by decide)).1⟩,
   ⟨by decide, (refcount_lifecycle.2.2) (JavaObject.new 42 0) (by decide)⟩⟩

/-! ### C5 : monitor lock -/

/-- C5 counterexample evaluation: on a freshly created (unlocked)
monitor, `lock` panics (`fail!("cannot lock object")`) for any thread,
even though `can_be_locked_by_thread` reports that thread 1 may lock
it; the claim (and the source's own doc comment) say the lock succeeds
when nobody else holds the monitor. -/
theorem lock_fails_on_unlocked_monitor :
    JavaMonitor.lock JavaMonitor.new 1 = none
    ∧ JavaMonitor.can_be_locked_by_thread JavaMonitor.new 1 = some true := by
  decide

/-! ### C4 : notify_one / notify_all -/

/-- C4 counterexample evaluation: thread 1 holds the monitor and one
un-notified waiter sits in `waiters_prio`, but because `notify_one` and
`notify_all` loop up to `waiters.len()` (which is 0) instead of
`waiters_prio.len()`, neither flips the entry's notified bit. -/
theorem notify_misses_sole_prio_waiter :
    JavaMonitor.notify_one
        { lock_count := 1, owner := some 1, waiters := [], waiters_prio := [(false, 5, 1)] } 1
      = some { lock_count := 1, owner := some 1, waiters := [], waiters_prio := [(false, 5, 1)] }
    ∧ JavaMonitor.notify_all
        { lock_count := 1, owner := some 1, waiters := [], waiters_prio := [(false, 5, 1)] } 1
      = some { lock_count := 1, owner := some 1, waiters := [], waiters_prio := [(false, 5, 1)] } := by
  decide

/-! ### C6 : unregister on thread termination -/

/-- C6 counterexample evaluation: when resolving the startup class
fails, `execute`'s task body runs `die_exception` (a stub) and returns;
a thread context that has sent nothing so far therefore terminates with
an empty send trace — no `OB_UNREGISTER` is ever sent on this path.  By
contrast the normal termination path (`vm_was_shutdown` set) does send
`OB_UNREGISTER(tid, owned_objects)`. -/
theorem execute_load_failure_sends_no_unregister :
    (∀ msg fuel c, ThreadContext.execute_task (Except.error msg) fuel c = some c.sent)
    ∧ ThreadContext.execute_task (Except.error "DUMMY") 5
        { tid := 1, vm_was_shutdown := false,
          heap := { tid := 1, owned_objects := [] }, sent := [] }
      = some []
    ∧ (∀ fuel tid h sent,
        execLoop (fuel + 1)
          { tid := tid, vm_was_shutdown := true, heap := h, sent := sent }
        = some (sent ++ [.OB_UNREGISTER tid h.owned_objects])) := by
  refine ⟨fun msg fuel c => rfl, rfl, fun fuel tid h sent => rfl⟩

/-! ### C7 : waiters on a failed class load -/

/-- C7 counterexample evaluation: a first `load` of class 0 inserts a
`Pending([])` entry, a second concurrent `load` enqueues waiter channel
1, and then the worker fails to locate the class file.  The worker
produces only its own `Err` future: the notification list is empty and
the entry stays `Pending([1])`, so waiter 1 is never fulfilled. -/
theorem load_failure_leaves_waiter_unnotified :
    check_is_present_or_enqueue [] 0 0 = (none, [(0, .ClassPending [])])
    ∧ check_is_present_or_enqueue [(0, .ClassPending [])] 0 1
        = (some (.fromPort 1), [(0, .ClassPending [1])])
    ∧ class_load_worker [(0, .ClassPending [1])] 0 none
        = some ([(0, .ClassPending [1])], [],
                Except.error "failed to locate class file")
    ∧ pendingWaiters [(0, .ClassPending [1])] 0 = [1] :=
  ⟨by decide, by decide, by decide, by decide⟩

/-! ### C3 : monitor state invariant -/

/-- In the code as written, `lock` refuses every thread that does not
already hold the monitor (it tests `is_locked_by_thread` instead of
`can_be_locked_by_thread`), so no successful operation sequence ever
raises `lock_count` above 0, sets `owner`, or populates
`waiters_prio`. -/
theorem monReachable_char {m : JavaMonitor} (h : MonReachable m) :
    m.lock_count = 0 ∧ m.owner = none ∧ m.waiters_prio = [] := by
  induction h with
  | new => exact ⟨rfl, rfl, rfl⟩
  | lock hr heq ih =>
    obtain ⟨h1, h2, h3⟩ := ih
    simp [JavaMonitor.lock, JavaMonitor.is_locked_by_thread, h1] at heq
  | unlock hr heq ih =>
    obtain ⟨h1, h2, h3⟩ := ih
    simp [JavaMonitor.unlock, h1] at heq
  | push_thread hr heq ih =>
    obtain ⟨h1, h2, h3⟩ := ih
    rename_i m m2 tid is_notify
    cases is_notify with
    | true =>
      simp [JavaMonitor.push_thread, JavaMonitor.is_locked_by_thread, h1] at heq
    | false =>
      simp only [JavaMonitor.push_thread, Bool.false_eq_true, if_false,
        Option.some.injEq] at heq
      subst heq
      exact ⟨h1, h2, h3⟩
  | wait_noblock hr heq ih =>
    obtain ⟨h1, h2, h3⟩ := ih
    simp [JavaMonitor.wait_noblock, JavaMonitor.is_locked_by_thread, h1] at heq
  | notify_one hr heq ih =>
    obtain ⟨h1, h2, h3⟩ := ih
    simp [JavaMonitor.notify_one, JavaMonitor.is_locked_by_thread, h1] at heq
  | notify_all hr heq ih =>
    obtain ⟨h1, h2, h3⟩ := ih
    simp [JavaMonitor.notify_all, JavaMonitor.is_locked_by_thread, h1] at heq
  | pop_ready_thread hr heq ih =>
    obtain ⟨h1, h2, h3⟩ := ih
    rename_i m m2 r
    rcases hw : m.waiters with _ | ⟨t, ts⟩ <;>
      simp [JavaMonitor.pop_ready_thread, JavaMonitor.is_locked, h1, h2, h3, hw] at heq
    · obtain ⟨-, heq⟩ := heq
      simp [← heq, h1, h2, h3]
    · obtain ⟨-, heq⟩ := heq
      simp [← heq]

/-- C3: on every monitor state reachable from a fresh monitor by
successful monitor operations, `owner` is `Some` iff `lock_count > 0`,
and in `waiters_prio` every notified entry precedes every un-notified
one. -/
theorem monitor_state_invariant (m : JavaMonitor) (h : MonReachable m) :
    (m.owner.isSome = true ↔ m.lock_count > 0)
    ∧ notifiedPrecede m.waiters_prio := by
  obtain ⟨h1, h2, h3⟩ := monReachable_char h
  constructor
  · rw [h1, h2]
    simp
  · rw [h3]
    intro i j hi hj _ _
    simp at hi
theorem monitor_state_invariant_witness :
    MonReachable monOutsideWaiter
    ∧ ((monOutsideWaiter.owner.isSome = true ↔ monOutsideWaiter.lock_count > 0)
        ∧ notifiedPrecede monOutsideWaiter.waiters_prio) :=
  have hr : MonReachable monOutsideWaiter :=
    @MonReachable.push_thread JavaMonitor.new monOutsideWaiter 5 false
      MonReachable.new (by rfl)
  ⟨hr, monitor_state_invariant monOutsideWaiter hr⟩

/-! ### C8 : constant pool index range checks -/

theorem checkIndices_foldl_none (count : Nat) (idxs : List Nat) :
    ∀ acc,
      idxs.foldl (fun acc i => if cindexBad count i then some (idxErrMsg i) else acc) acc
          = none →
      acc = none ∧ ∀ i ∈ idxs, cindexBad count i = false := by
  induction idxs with
  | nil =>
    intro acc h
    exact ⟨h, by simp⟩
  | cons i idxs ih =>
    intro acc h
    simp only [List.foldl_cons] at h
    obtain ⟨hstep, hall⟩ := ih _ h
    by_cases hb : cindexBad count i = true
    · rw [if_pos hb] at hstep
      cases hstep
    · rw [if_neg hb] at hstep
      refine ⟨hstep, ?_⟩
      intro j hj
      rcases List.mem_cons.mp hj with rfl | hj2
      · exact Bool.eq_false_iff.mpr hb
      · exact hall j hj2

theorem cindexBad_false_in_range {count i : Nat} (h : cindexBad count i = false) :
    1 ≤ i ∧ i < count := by
  simp [cindexBad] at h
  omega

theorem one_idx_in_range {count i : Nat} (hc : checkIndices count [i] = none) :
    1 ≤ i ∧ i < count := by
  obtain ⟨-, hall⟩ := checkIndices_foldl_none count [i] none hc
  exact cindexBad_false_in_range (hall i (by simp))

theorem two_idx_in_range {count i1 i2 : Nat}
    (hc : checkIndices count [i1, i2] = none) :
    (1 ≤ i1 ∧ i1 < count) ∧ (1 ≤ i2 ∧ i2 < count) := by
  obtain ⟨-, hall⟩ := checkIndices_foldl_none count [i1, i2] none hc
  exact ⟨cindexBad_false_in_range (hall i1 (by simp)),
         cindexBad_false_in_range (hall i2 (by simp))⟩

theorem read_cpool_entry_body_ok_in_range (tag : ConstantPoolTags) (r : Rdr)
    (count : Nat) (c : Constant) (skip : Nat) (r2 : Rdr)
    (h : read_cpool_entry_body tag r count = .ok (c, skip, r2)) :
    constantIndicesInRange count c := by
  cases tag
  case CONSTANT_class =>
    rcases h1 : read_be_u16 r with _ | ⟨i, r1⟩ <;>
        simp only [read_cpool_entry_body, h1] at h
    · exact Except.noConfusion h
    · rcases hc : checkIndices count [i] with _ | e <;>
          simp only [hc, Except.ok.injEq, Prod.mk.injEq] at h
      · obtain ⟨hcent, -, -⟩ := h
        subst hcent
        exact one_idx_in_range hc
      · exact Except.noConfusion h
  case CONSTANT_fieldref =>
    rcases h1 : read_be_u16 r with _ | ⟨i1, r1⟩ <;>
        simp only [read_cpool_entry_body, h1] at h
    · exact Except.noConfusion h
    · rcases h2 : read_be_u16 r1 with _ | ⟨i2, r2x⟩ <;> simp only [h2] at h
      · exact Except.noConfusion h
      · rcases hc : checkIndices count [i1, i2] with _ | e <;>
            simp only [hc, Except.ok.injEq, Prod.mk.injEq] at h
        · obtain ⟨hcent, -, -⟩ := h
          subst hcent
          exact two_idx_in_range hc
        · exact Except.noConfusion h
  case CONSTANT_methodref =>
    rcases h1 : read_be_u16 r with _ | ⟨i1, r1⟩ <;>
        simp only [read_cpool_entry_body, h1] at h
    · exact Except.noConfusion h
    · rcases h2 : read_be_u16 r1 with _ | ⟨i2, r2x⟩ <;> simp only [h2] at h
      · exact Except.noConfusion h
      · rcases hc : checkIndices count [i1, i2] with _ | e <;>
            simp only [hc, Except.ok.injEq, Prod.mk.injEq] at h
        · obtain ⟨hcent, -, -⟩ := h
          subst hcent
          exact two_idx_in_range hc
        · exact Except.noConfusion h
  case CONSTANT_ifacemethodref =>
    rcases h1 : read_be_u16 r with _ | ⟨i1, r1⟩ <;>
        simp only [read_cpool_entry_body, h1] at h
    · exact Except.noConfusion h
    · rcases h2 : read_be_u16 r1 with _ | ⟨i2, r2x⟩ <;> simp only [h2] at h
      · exact Except.noConfusion h
      · rcases hc : checkIndices count [i1, i2] with _ | e <;>
            simp only [hc, Except.ok.injEq, Prod.mk.injEq] at h
        · obtain ⟨hcent, -, -⟩ := h
          subst hcent
          exact two_idx_in_range hc
        · exact Except.noConfusion h
  case CONSTANT_string =>
    rcases h1 : read_be_u16 r with _ | ⟨i, r1⟩ <;>
        simp only [read_cpool_entry_body, h1] at h
    · exact Except.noConfusion h
    · rcases hc : checkIndices count [i] with _ | e <;>
          simp only [hc, Except.ok.injEq, Prod.mk.injEq] at h
      · obtain ⟨hcent, -, -⟩ := h
        subst hcent
        exact one_idx_in_range hc
      · exact Except.noConfusion h
  case CONSTANT_integer =>
    rcases h1 : read_be_u32 r with _ | ⟨v, r1⟩ <;>
        simp only [read_cpool_entry_body, h1, Except.ok.injEq, Prod.mk.injEq] at h
    · exact Except.noConfusion h
    · obtain ⟨hcent, -, -⟩ := h
      subst hcent
      trivial
  case CONSTANT_float =>
    rcases h1 : read_be_u32 r with _ | ⟨v, r1⟩ <;>
        simp only [read_cpool_entry_body, h1, Except.ok.injEq, Prod.mk.injEq] at h
    · exact Except.noConfusion h
    · obtain ⟨hcent, -, -⟩ := h
      subst hcent
      trivial
  case CONSTANT_long =>
    rcases h1 : read_be_u64 r with _ | ⟨v, r1⟩ <;>
        simp only [read_cpool_entry_body, h1, Except.ok.injEq, Prod.mk.injEq] at h
    · exact Except.noConfusion h
    · obtain ⟨hcent, -, -⟩ := h
      subst hcent
      trivial
  case CONSTANT_double =>
    rcases h1 : read_be_u64 r with _ | ⟨v, r1⟩ <;>
        simp only [read_cpool_entry_body, h1, Except.ok.injEq, Prod.mk.injEq] at h
    · exact Except.noConfusion h
    · obtain ⟨hcent, -, -⟩ := h
      subst hcent
      trivial
  case CONSTANT_nameandtype =>
    rcases h1 : read_be_u16 r with _ | ⟨i1, r1⟩ <;>
        simp only [read_cpool_entry_body, h1] at h
    · exact Except.noConfusion h
    · rcases h2 : read_be_u16 r1 with _ | ⟨i2, r2x⟩ <;> simp only [h2] at h
      · exact Except.noConfusion h
      · rcases hc : checkIndices count [i1, i2] with _ | e <;>
            simp only [hc, Except.ok.injEq, Prod.mk.injEq] at h
        · obtain ⟨hcent, -, -⟩ := h
          subst hcent
          exact two_idx_in_range hc
        · exact Except.noConfusion h
  case CONSTANT_utf8 =>
    rcases h1 : read_be_u16 r with _ | ⟨len, r1⟩ <;>
        simp only [read_cpool_entry_body, h1] at h
    · exact Except.noConfusion h
    · rcases h2 : read_bytes len r1 with _ | ⟨raw, r2x⟩ <;> simp only [h2] at h
      · exact Except.noConfusion h
      · by_cases hv : utf8Valid raw = true <;>
            simp only [hv, if_true, if_false, Bool.false_eq_true,
              Except.ok.injEq, Prod.mk.injEq] at h
        · obtain ⟨hcent, -, -⟩ := h
          subst hcent
          trivial
        · exact Except.noConfusion h
  case CONSTANT_methodhandle =>
    rcases h1 : read_u8 r with _ | ⟨kind, r1⟩ <;>
        simp only [read_cpool_entry_body, h1] at h
    · exact Except.noConfusion h
    · rcases h2 : read_be_u16 r1 with _ | ⟨i, r2x⟩ <;> simp only [h2] at h
      · exact Except.noConfusion h
      · rcases hc : checkIndices count [i] with _ | e <;>
            simp only [hc, Except.ok.injEq, Prod.mk.injEq] at h
        · obtain ⟨hcent, -, -⟩ := h
          subst hcent
          exact one_idx_in_range hc
        · exact Except.noConfusion h
  case CONSTANT_methodtype =>
    rcases h1 : read_be_u16 r with _ | ⟨i, r1⟩ <;>
        simp only [read_cpool_entry_body, h1] at h
    · exact Except.noConfusion h
    · rcases hc : checkIndices count [i] with _ | e <;>
          simp only [hc, Except.ok.injEq, Prod.mk.injEq] at h
      · obtain ⟨hcent, -, -⟩ := h
        subst hcent
        exact one_idx_in_range hc
      · exact Except.noConfusion h
  case CONSTANT_invokedynamic =>
    rcases h1 : read_be_u16 r with _ | ⟨bootstrap, r1⟩ <;>
        simp only [read_cpool_entry_body, h1] at h
    · exact Except.noConfusion h
    · rcases h2 : read_be_u16 r1 with _ | ⟨i, r2x⟩ <;> simp only [h2] at h
      · exact Except.noConfusion h
      · rcases hc : checkIndices count [i] with _ | e <;>
            simp only [hc, Except.ok.injEq, Prod.mk.injEq] at h
        · obtain ⟨hcent, -, -⟩ := h
          subst hcent
          exact one_idx_in_range hc
        · exact Except.noConfusion h

theorem load_cpool_go_ok_in_range (fuel : Nat) :
    ∀ count i acc r cs r2,
      load_cpool_go fuel count i acc r = .ok (cs, r2) →
      (∀ c ∈ acc, constantIndicesInRange count c) →
      ∀ c ∈ cs, constantIndicesInRange count c := by
  induction fuel with
  | zero =>
    intro count i acc r cs r2 h hacc
    simp only [load_cpool_go] at h
    split at h
    · exact Except.noConfusion h
    · simp only [Except.ok.injEq, Prod.mk.injEq] at h
      obtain ⟨hcs, -⟩ := h
      subst hcs
      exact hacc
  | succ n ih =>
    intro count i acc r cs r2 h hacc
    simp only [load_cpool_go] at h
    split at h
    · rcases h1 : read_u8 r with _ | ⟨tag, r1⟩ <;> simp only [h1] at h
      · exact Except.noConfusion h
      · rcases h2 : tagFromU8 tag with _ | t <;> simp only [h2] at h
        · exact Except.noConfusion h
        · rcases h3 : read_cpool_entry_body t r1 count with e | ⟨centry, skip, r2x⟩ <;>
              simp only [h3] at h
          · exact Except.noConfusion h
          · refine ih count (i + skip + 1) (acc ++ [centry]) r2x cs r2 h ?_
            intro c hc
            rcases List.mem_append.mp hc with hc2 | hc2
            · exact hacc c hc2
            · rw [List.mem_singleton.mp hc2]
              exact read_cpool_entry_body_ok_in_range t r1 count centry skip r2x h3
    · simp only [Except.ok.injEq, Prod.mk.injEq] at h
      obtain ⟨hcs, -⟩ := h
      subst hcs
      exact hacc

/-- C8: constant pool parsing rejects every cross-reference index that
is 0 or at least `cpool_count` (`read_cpool_entry_body` can only
succeed with indices in `[1, count)`), and consequently every entry of
a successfully parsed pool has all its stored indices in
`[1, cpool_count)`. -/
theorem cpool_indices_checked :
    (∀ tag r count c skip r2,
        read_cpool_entry_body tag r count = .ok (c, skip, r2) →
        constantIndicesInRange count c)
    ∧ (∀ r count r1 cs r2,
        read_be_u16 r = some (count, r1) →
        load_constant_pool r = .ok (cs, r2) →
        ∀ c ∈ cs, constantIndicesInRange count c) := by
  constructor
  · exact read_cpool_entry_body_ok_in_range
  · intro r count r1 cs r2 hcount h
    simp only [load_constant_pool, hcount] at h
    by_cases hz : count = 0
    · rw [if_pos hz] at h
      cases h
    · rw [if_neg hz] at h
      exact load_cpool_go_ok_in_range count count 1 [] r1 cs r2 h (by simp)

/-! ### Broker preservation lemmas (used by C2) -/

theorem shutdownSends_append (l l2 : List (Nat × ObjectBrokerMessage)) :
    shutdownSends (l ++ l2) = shutdownSends l ++ shutdownSends l2 := by
  simp [shutdownSends]

theorem shutdownSends_objop (t a b : Nat) (op : RemoteObjectOpMessage) :
    shutdownSends [(t, .OB_REMOTE_OBJECT_OP a b op)] = [] := rfl

theorem obsPreserved_rfl (ob : ObjectBroker) : ObsPreserved ob ob :=
  ⟨rfl, rfl, rfl⟩

theorem obsPreserved_trans {ob1 ob2 ob3 : ObjectBroker}
    (h1 : ObsPreserved ob1 ob2) (h2 : ObsPreserved ob2 ob3) :
    ObsPreserved ob1 ob3 :=
  ⟨h2.1.trans h1.1, h2.2.1.trans h1.2.1, h2.2.2.trans h1.2.2⟩

theorem sendTo_objop_preserves {ob : ObjectBroker} {tid a b : Nat}
    {op : RemoteObjectOpMessage} {ob2 : ObjectBroker}
    (h : ObjectBroker.sendTo ob tid (.OB_REMOTE_OBJECT_OP a b op) = some ob2) :
    ObsPreserved ob ob2 := by
  unfold ObjectBroker.sendTo at h
  rcases hq : alLookup ob.thread_chans tid with _ | q <;> simp only [hq] at h
  · exact Option.noConfusion h
  · cases h
    exact ⟨rfl, rfl, by rw [shutdownSends_append, shutdownSends_objop, List.append_nil]⟩

theorem handle_object_op_main_preserves {ob : ObjectBroker} {a b : Nat}
    {op : RemoteObjectOpMessage} {ob2 : ObjectBroker}
    (h : handle_object_op_main ob a b op = some ob2) :
    ObsPreserved ob ob2 := by
  cases op with
  | REMOTE_ADD_REF =>
    simp only [handle_object_op_main] at h
    rcases h1 : alLookup ob.objects_with_owners b with _ | owner <;>
        simp only [h1] at h
    · cases h
      exact ⟨rfl, rfl, rfl⟩
    · split at h
      · rcases h2 : alLookup ob.objects_owned b with _ | o <;> simp only [h2] at h
        · exact Option.noConfusion h
        · cases h
          exact ⟨rfl, rfl, rfl⟩
      · exact sendTo_objop_preserves h
  | REMOTE_RELEASE =>
    simp only [handle_object_op_main] at h
    rcases h1 : alLookup ob.objects_with_owners b with _ | owner <;>
        simp only [h1] at h
    · exact Option.noConfusion h
    · split at h
      · cases h
        exact ⟨rfl, rfl, rfl⟩
      · split at h
        · rcases h2 : alLookup ob.objects_owned b with _ | o <;> simp only [h2] at h
          · exact Option.noConfusion h
          · rcases h3 : o.intern_release with _ | ⟨nz, o2⟩ <;> simp only [h3] at h
            · exact Option.noConfusion h
            · split at h
              · cases h
                exact ⟨rfl, rfl, rfl⟩
              · cases h
                exact ⟨rfl, rfl, rfl⟩
        · exact sendTo_objop_preserves h
  | REMOTE_WHO_OWNS =>
    simp only [handle_object_op_main] at h
    rcases h1 : alLookup ob.objects_with_owners b with _ | owner <;>
        simp only [h1] at h
    · exact Option.noConfusion h
    · exact sendTo_objop_preserves h
  | REMOTE_OWN rmode =>
    simp only [handle_object_op_main] at h
    rcases h1 : alLookup ob.objects_with_owners b with _ | owner <;>
        simp only [h1] at h
    · exact Option.noConfusion h
    · split at h
      · exact Option.noConfusion h
      · split at h
        · rcases h2 : alLookup ob.objects_owned b with _ | o <;> simp only [h2] at h
          · exact Option.noConfusion h
          · have p0 := sendTo_objop_preserves h
            exact ⟨p0.1, p0.2.1, p0.2.2⟩
        · rcases h2 : ObjectBroker.sendTo ob owner
              (.OB_REMOTE_OBJECT_OP a b (.REMOTE_OWN rmode)) with _ | ob1 <;>
            simp only [h2] at h
          · exact Option.noConfusion h
          · cases h
            have p0 := sendTo_objop_preserves h2
            exact ⟨p0.1, p0.2.1, p0.2.2⟩
  | REMOTE_DISOWN obj rec =>
    simp only [handle_object_op_main] at h
    exact Option.noConfusion h

theorem handle_object_op_preserves (fuel : Nat) :
    (∀ ob a b op ob2, handle_object_op fuel ob a b op = some ob2 →
        ObsPreserved ob ob2)
    ∧ (∀ ob ms ob2, drain_shelf fuel ob ms = some ob2 → ObsPreserved ob ob2) := by
  induction fuel with
  | zero =>
    constructor
    · intro ob a b op ob2 h
      exact Option.noConfusion h
    · intro ob ms ob2 h
      cases ms with
      | nil =>
        cases h
        exact obsPreserved_rfl ob
      | cons m rest => exact Option.noConfusion h
  | succ n ih =>
    constructor
    · intro ob a b op ob2 h
      cases op with
      | REMOTE_WHO_OWNS =>
        simp only [handle_object_op] at h
        exact handle_object_op_main_preserves h
      | REMOTE_DISOWN obj rec =>
        simp only [handle_object_op] at h
        rcases h1 : alLookup ob.objects_with_owners b with _ | owner <;>
            simp only [h1] at h
        · exact Option.noConfusion h
        · split at h
          · rcases h2 : ObjectBroker.sendTo
                { ob with objects_with_owners := alInsert ob.objects_with_owners b rec }
                rec (.OB_REMOTE_OBJECT_OP a b (.REMOTE_DISOWN obj rec)) with _ | obx <;>
              simp only [h2] at h
            · exact Option.noConfusion h
            · rcases h3 : alLookup obx.waiting_shelf b with _ | sh <;>
                  simp only [h3] at h
              · exact Option.noConfusion h
              · have p0 := sendTo_objop_preserves h2
                have p1 : ObsPreserved ob obx := ⟨p0.1, p0.2.1, p0.2.2⟩
                have p3 := ih.2 _ _ _ h
                refine obsPreserved_trans p1 ?_
                exact ⟨p3.1, p3.2.1, p3.2.2⟩
          · exact Option.noConfusion h
      | REMOTE_ADD_REF =>
        simp only [handle_object_op] at h
        rcases h1 : alLookup ob.waiting_shelf b with _ | v <;> simp only [h1] at h
        · exact handle_object_op_main_preserves h
        · cases h
          exact ⟨rfl, rfl, rfl⟩
      | REMOTE_RELEASE =>
        simp only [handle_object_op] at h
        rcases h1 : alLookup ob.waiting_shelf b with _ | v <;> simp only [h1] at h
        · exact handle_object_op_main_preserves h
        · cases h
          exact ⟨rfl, rfl, rfl⟩
      | REMOTE_OWN mode =>
        simp only [handle_object_op] at h
        rcases h1 : alLookup ob.waiting_shelf b with _ | v <;> simp only [h1] at h
        · exact handle_object_op_main_preserves h
        · cases h
          exact ⟨rfl, rfl, rfl⟩
    · intro ob ms ob2 h
      cases ms with
      | nil =>
        cases h
        exact obsPreserved_rfl ob
      | cons m rest =>
        simp only [drain_shelf] at h
        cases m with
        | OB_REMOTE_OBJECT_OP a b op =>
          rcases h1 : handle_object_op n ob a b op with _ | obx <;>
              simp only [h1] at h
          · exact Option.noConfusion h
          · exact obsPreserved_trans (ih.1 _ _ _ _ _ h1) (ih.2 _ _ _ h)
        | OB_REGISTER a => exact Option.noConfusion h
        | OB_UNREGISTER a objs => exact Option.noConfusion h
        | OB_THREAD_REMOTE_OP a b op => exact Option.noConfusion h
        | OB_VM_TO_BROKER op => exact Option.noConfusion h
        | OB_SHUTDOWN a code => exact Option.noConfusion h

theorem own_all_preserves (objs : List (Nat × JavaObject)) :
    ∀ ob ob2, ObjectBroker.own_all ob objs = some ob2 → ObsPreserved ob ob2 := by
  induction objs with
  | nil =>
    intro ob ob2 h
    cases h
    exact obsPreserved_rfl ob
  | cons p rest ih =>
    intro ob ob2 h
    obtain ⟨oid, o⟩ := p
    simp only [ObjectBroker.own_all] at h
    split at h
    · have p2 := ih _ _ h
      refine obsPreserved_trans ?_ p2
      exact ⟨rfl, rfl, rfl⟩
    · exact Option.noConfusion h

/-- A shutdown trigger arriving while a shutdown is already in progress
(or complete) is ignored: the broker state and the input queue are
returned unchanged. -/
theorem shutdown_protocol_ignored (fuel : Nat) (ob : ObjectBroker) (code : Int)
    (input : List ObjectBrokerMessage)
    (h : ob.shutdown_state ≠ .NOT_IN_SHUTDOWN) :
    shutdown_protocol fuel ob code input = some (ob, input) := by
  cases fuel <;> simp [shutdown_protocol, h]

theorem handle_message_shutting_down (fuel : Nat) :
    ∀ ob input ob2 input2 cont,
      ob.shutdown_state = .SHUTTING_DOWN →
      handle_message fuel ob input = some (ob2, input2, cont) →
      ObsPreserved ob ob2 := by
  cases fuel with
  | zero =>
    intro ob input ob2 input2 cont hss h
    exact Option.noConfusion h
  | succ n =>
    intro ob input ob2 input2 cont hss h
    cases input with
    | nil => exact Option.noConfusion h
    | cons msg rest =>
      cases msg with
      | OB_REMOTE_OBJECT_OP a b op =>
        simp only [handle_message] at h
        rcases h1 : handle_object_op n ob a b op with _ | obx <;>
            simp only [h1] at h
        · exact Option.noConfusion h
        · cases h
          exact (handle_object_op_preserves n).1 _ _ _ _ _ h1
      | OB_THREAD_REMOTE_OP a b op =>
        simp only [handle_message] at h
        rcases h1 : ob.threads.process_message a b op with _ | tm <;>
            simp only [h1] at h
        · exact Option.noConfusion h
        · cases h
          exact ⟨rfl, rfl, rfl⟩
      | OB_VM_TO_BROKER op =>
        cases op with
        | VM_TO_BROKER_DO_SHUTDOWN =>
          simp only [handle_message] at h
          rw [shutdown_protocol_ignored n ob _ rest (by rw [hss]; intro hx; cases hx)] at h
          cases h
          exact obsPreserved_rfl ob
        | VM_TO_BROKER_ACK_SHUTDOWN =>
          simp only [handle_message] at h
          rw [hss] at h
          simp at h
      | OB_SHUTDOWN a code =>
        simp only [handle_message] at h
        rw [shutdown_protocol_ignored n ob code rest (by rw [hss]; intro hx; cases hx)] at h
        cases h
        exact obsPreserved_rfl ob
      | OB_REGISTER a =>
        simp only [handle_message] at h
        split at h
        · exact Option.noConfusion h
        · split at h
          · exact Option.noConfusion h
          · rcases h1 : ThreadManager.add_thread
                { ob with thread_chans := alInsert ob.thread_chans a [] }.threads a 0
              with _ | tm <;> simp only [h1] at h
            · exact Option.noConfusion h
            · split at h
              · cases h
                exact ⟨rfl, rfl, rfl⟩
              · exact Option.noConfusion h
      | OB_UNREGISTER a objs =>
        simp only [handle_message] at h
        split at h
        · rcases h1 : ObjectBroker.own_all
              { ob with thread_chans := alRemove ob.thread_chans a } objs
            with _ | obx <;> simp only [h1] at h
          · exact Option.noConfusion h
          · have q := own_all_preserves objs _ _ h1
            have p1 : ObsPreserved ob obx := obsPreserved_trans ⟨rfl, rfl, rfl⟩ q
            split at h
            · rcases h2 : ThreadManager.remove_thread obx.threads a
                with _ | tm <;> simp only [h2] at h
              · exact Option.noConfusion h
              · have p2 : ObsPreserved obx { obx with threads := tm } := ⟨rfl, rfl, rfl⟩
                split at h
                · exact Option.noConfusion h
                · cases h
                  exact obsPreserved_trans p1 p2
                · rw [shutdown_protocol_ignored n { obx with threads := tm } 0 rest
                      (by
                        have hx : obx.shutdown_state = ShutdownState.SHUTTING_DOWN :=
                          p1.1.trans hss
                        show ({ obx with threads := tm } : ObjectBroker).shutdown_state
                            ≠ ShutdownState.NOT_IN_SHUTDOWN
                        rw [show ({ obx with threads := tm } : ObjectBroker).shutdown_state
                            = obx.shutdown_state from rfl, hx]
                        intro hy
                        cases hy)] at h
                  cases h
                  exact obsPreserved_trans p1 p2
            · exact Option.noConfusion h
        · exact Option.noConfusion h

theorem wait_unregister_shutting_down (fuel : Nat) :
    ∀ ob input ob2 input2,
      ob.shutdown_state = .SHUTTING_DOWN →
      wait_unregister fuel ob input = some (ob2, input2) →
      ObsPreserved ob ob2 := by
  induction fuel with
  | zero =>
    intro ob input ob2 input2 hss h
    simp only [wait_unregister] at h
    split at h
    · cases h
      exact obsPreserved_rfl ob
    · exact Option.noConfusion h
  | succ n ih =>
    intro ob input ob2 input2 hss h
    simp only [wait_unregister] at h
    split at h
    · cases h
      exact obsPreserved_rfl ob
    · rcases h1 : handle_message n ob input with _ | ⟨obx, inpx, cont⟩ <;>
          simp only [h1] at h
      · exact Option.noConfusion h
      · split at h
        · have p1 : ObsPreserved ob obx :=
            handle_message_shutting_down n ob input obx inpx cont hss h1
          exact obsPreserved_trans p1 (ih obx inpx ob2 input2 (p1.1.trans hss) h)
        · exact Option.noConfusion h

theorem shutdownSends_map_broadcast (code : Int)
    (l : List (Nat × List ObjectBrokerMessage)) :
    shutdownSends (l.map (fun p => (p.1, ObjectBrokerMessage.OB_SHUTDOWN 0 code)))
      = l.map (fun p => (p.1, 0, code)) := by
  induction l with
  | nil => rfl
  | cons p rest ih =>
    simp only [List.map_cons, shutdownSends, List.filterMap_cons] at ih ⊢
    rw [ih]

theorem broadcast_shutdown_sends (ob : ObjectBroker) (code : Int) :
    shutdownSends (ob.broadcast_shutdown code).sent_log
      = shutdownSends ob.sent_log
        ++ ob.thread_chans.map (fun p => (p.1, 0, code)) := by
  show shutdownSends (ob.sent_log ++ ob.thread_chans.map
      (fun p => (p.1, ObjectBrokerMessage.OB_SHUTDOWN 0 code))) = _
  rw [shutdownSends_append, shutdownSends_map_broadcast]

/-! ### C2 : shutdown protocol, first trigger wins -/

/-- C2: (a) a shutdown protocol run started from a non-shutting-down
broker ends in `SHUT_DOWN`, its complete set of `OB_SHUTDOWN` channel
sends is exactly one `OB_SHUTDOWN(0, code)` per thread channel
registered at the moment of the trigger, and the code delivered to the
VM in `BROKER_TO_VM_DID_SHUTDOWN` is the triggering code; (b) any
trigger arriving while a shutdown is in progress or complete is
ignored; (c) and (d) a thread `OB_SHUTDOWN(a, code)` message and a
`VM_TO_BROKER_DO_SHUTDOWN` message enter the protocol with `code`
respectively the reserved `EXIT_CODE_VM_INITIATED_SHUTDOWN`. -/
theorem shutdown_first_trigger_wins :
    (∀ fuel ob code input ob2 input2,
        ob.shutdown_state = .NOT_IN_SHUTDOWN →
        shutdown_protocol fuel ob code input = some (ob2, input2) →
        ob2.shutdown_state = .SHUT_DOWN
        ∧ shutdownSends ob2.sent_log
            = shutdownSends ob.sent_log
              ++ ob.thread_chans.map (fun p => (p.1, 0, code))
        ∧ ob2.vm_chan = ob.vm_chan ++ [code])
    ∧ (∀ fuel ob code input,
        ob.shutdown_state ≠ .NOT_IN_SHUTDOWN →
        shutdown_protocol fuel ob code input = some (ob, input))
    ∧ (∀ fuel ob a code input,
        handle_message (fuel + 1) ob (.OB_SHUTDOWN a code :: input)
          = match shutdown_protocol fuel ob code input with
            | none => none
            | some (obx, rest2) => some (obx, rest2, true))
    ∧ (∀ fuel ob input,
        handle_message (fuel + 1) ob
            (.OB_VM_TO_BROKER .VM_TO_BROKER_DO_SHUTDOWN :: input)
          = match shutdown_protocol fuel ob
                EXIT_CODE_VM_INITIATED_SHUTDOWN input with
            | none => none
            | some (obx, rest2) => some (obx, rest2, true)) := by
  refine ⟨?_, shutdown_protocol_ignored, ?_, ?_⟩
  · intro fuel ob code input ob2 input2 hns h
    cases fuel with
    | zero =>
      simp [shutdown_protocol, hns] at h
    | succ n =>
      simp only [shutdown_protocol] at h
      rw [if_neg (by simp [hns])] at h
      rcases hw : wait_unregister n
          (ObjectBroker.broadcast_shutdown
            { ob with shutdown_state := ShutdownState.SHUTTING_DOWN } code) input
        with _ | ⟨obx, inpx⟩ <;> simp only [hw] at h
      · exact Option.noConfusion h
      · cases h
        have p := wait_unregister_shutting_down n _ input obx input2 rfl hw
        refine ⟨rfl, ?_, ?_⟩
        · calc
            shutdownSends obx.sent_log
                = shutdownSends (ObjectBroker.broadcast_shutdown
                    { ob with shutdown_state := ShutdownState.SHUTTING_DOWN }
                    code).sent_log := p.2.2
            _ = shutdownSends ob.sent_log
                  ++ ob.thread_chans.map (fun p => (p.1, 0, code)) :=
              broadcast_shutdown_sends
                { ob with shutdown_state := ShutdownState.SHUTTING_DOWN } code
        · show obx.vm_chan ++ [code] = ob.vm_chan ++ [code]
          rw [p.2.1]
          rfl
  · intro fuel ob a code input
    rfl
  · intro fuel ob input
    rfl

theorem shutdown_first_trigger_wins_witness :
    obClean.shutdown_state = ShutdownState.NOT_IN_SHUTDOWN
    ∧ ∃ p, shutdown_protocol 10 obClean 15 inputBothUnregister = some p
        ∧ p.1.shutdown_state = ShutdownState.SHUT_DOWN
        ∧ shutdownSends p.1.sent_log
            = shutdownSends obClean.sent_log
              ++ obClean.thread_chans.map (fun q => (q.1, 0, (15 : Int)))
        ∧ p.1.vm_chan = obClean.vm_chan ++ [15] := by
  refine ⟨rfl, ?_⟩
  have hs : (shutdown_protocol 10 obClean 15 inputBothUnregister).isSome = true := by
    decide
  obtain ⟨p, hp⟩ := Option.isSome_iff_exists.mp hs
  obtain ⟨ob2, input2⟩ := p
  have h := (shutdown_first_trigger_wins.1) 10 obClean 15 inputBothUnregister
    ob2 input2 rfl hp
  exact ⟨(ob2, input2), hp, h.1, h.2.1, h.2.2⟩

/-! ### C1 : the broker's shelving protocol -/

/-- C1: (a) forwarding a `REMOTE_OWN` to the current owner creates an
empty shelf entry for the object; (b) while a shelf entry exists, every
message for that object other than `REMOTE_WHO_OWNS` and
`REMOTE_DISOWN` is appended to the shelf and nothing else changes;
(c) on the matching `REMOTE_DISOWN` the broker sets the object's owner
to the receiver, forwards the `REMOTE_DISOWN` to the receiver's
channel, removes the shelf entry, and replays the shelved messages;
(d) the replay feeds the shelved messages to the dispatcher one by one
in FIFO order. -/
theorem broker_shelving_protocol :
    (∀ fuel ob a b mode owner q,
        alLookup ob.waiting_shelf b = none →
        alLookup ob.objects_with_owners b = some owner →
        owner ≠ a → owner ≠ 0 →
        alLookup ob.thread_chans owner = some q →
        handle_object_op (fuel + 1) ob a b (.REMOTE_OWN mode)
          = some { ob with
              thread_chans := alInsert ob.thread_chans owner
                (q ++ [.OB_REMOTE_OBJECT_OP a b (.REMOTE_OWN mode)])
              sent_log := ob.sent_log
                ++ [(owner, .OB_REMOTE_OBJECT_OP a b (.REMOTE_OWN mode))]
              waiting_shelf := alInsert ob.waiting_shelf b [] })
    ∧ (∀ fuel ob a b op l,
        alLookup ob.waiting_shelf b = some l →
        op ≠ .REMOTE_WHO_OWNS →
        (∀ obj rec, op ≠ .REMOTE_DISOWN obj rec) →
        handle_object_op (fuel + 1) ob a b op
          = some { ob with
              waiting_shelf := alInsert ob.waiting_shelf b
                (l ++ [.OB_REMOTE_OBJECT_OP a b op]) })
    ∧ (∀ fuel ob a b obj rec q sh,
        alLookup ob.objects_with_owners b = some a →
        alLookup ob.thread_chans rec = some q →
        alLookup ob.waiting_shelf b = some sh →
        handle_object_op (fuel + 1) ob a b (.REMOTE_DISOWN obj rec)
          = drain_shelf fuel
              { ob with
                objects_with_owners := alInsert ob.objects_with_owners b rec
                thread_chans := alInsert ob.thread_chans rec
                  (q ++ [.OB_REMOTE_OBJECT_OP a b (.REMOTE_DISOWN obj rec)])
                sent_log := ob.sent_log
                  ++ [(rec, .OB_REMOTE_OBJECT_OP a b (.REMOTE_DISOWN obj rec))]
                waiting_shelf := alRemove ob.waiting_shelf b }
              sh)
    ∧ (∀ fuel ob a b op rest,
        drain_shelf (fuel + 1) ob (.OB_REMOTE_OBJECT_OP a b op :: rest)
          = match handle_object_op fuel ob a b op with
            | none => none
            | some ob2 => drain_shelf fuel ob2 rest) := by
  refine ⟨?_, ?_, ?_, ?_⟩
  · intro fuel ob a b mode owner q h1 h2 h3 h4 h5
    simp [handle_object_op, handle_object_op_main, ObjectBroker.sendTo,
      h1, h2, h3, h4, h5]
  · intro fuel ob a b op l h1 h2 h3
    cases op with
    | REMOTE_WHO_OWNS => exact absurd rfl h2
    | REMOTE_DISOWN obj rec => exact absurd rfl (h3 obj rec)
    | REMOTE_ADD_REF => simp [handle_object_op, h1]
    | REMOTE_RELEASE => simp [handle_object_op, h1]
    | REMOTE_OWN mode => simp [handle_object_op, h1]
  · intro fuel ob a b obj rec q sh h1 h2 h3
    simp [handle_object_op, ObjectBroker.sendTo, h1, h2, h3]
  · intro fuel ob a b op rest
    rfl

theorem broker_shelving_protocol_witness :
    (alLookup obQuiet.waiting_shelf 7 = none
      ∧ handle_object_op 3 obQuiet 2 7 (.REMOTE_OWN .OBJECT_ACCESS_Normal)
          = some { obQuiet with
              thread_chans := alInsert obQuiet.thread_chans 1
                (([] : List ObjectBrokerMessage)
                  ++ [.OB_REMOTE_OBJECT_OP 2 7 (.REMOTE_OWN .OBJECT_ACCESS_Normal)])
              sent_log := obQuiet.sent_log
                ++ [(1, .OB_REMOTE_OBJECT_OP 2 7 (.REMOTE_OWN .OBJECT_ACCESS_Normal))]
              waiting_shelf := alInsert obQuiet.waiting_shelf 7 [] })
    ∧ (alLookup obInFlight.waiting_shelf 7
          = some [.OB_REMOTE_OBJECT_OP 1 7 .REMOTE_ADD_REF]
      ∧ handle_object_op 3 obInFlight 3 7 .REMOTE_ADD_REF
          = some { obInFlight with
              waiting_shelf := alInsert obInFlight.waiting_shelf 7
                ([ObjectBrokerMessage.OB_REMOTE_OBJECT_OP 1 7 .REMOTE_ADD_REF]
                  ++ [.OB_REMOTE_OBJECT_OP 3 7 .REMOTE_ADD_REF]) })
    ∧ handle_object_op 3 obInFlight 1 7 (.REMOTE_DISOWN (JavaObject.new 42 7) 2)
        = drain_shelf 2
            { obInFlight with
              objects_with_owners := alInsert obInFlight.objects_with_owners 7 2
              thread_chans := alInsert obInFlight.thread_chans 2
                (([] : List ObjectBrokerMessage)
                  ++ [.OB_REMOTE_OBJECT_OP 1 7 (.REMOTE_DISOWN (JavaObject.new 42 7) 2)])
              sent_log := obInFlight.sent_log
                ++ [(2, .OB_REMOTE_OBJECT_OP 1 7 (.REMOTE_DISOWN (JavaObject.new 42 7) 2))]
              waiting_shelf := alRemove obInFlight.waiting_shelf 7 }
            [.OB_REMOTE_OBJECT_OP 1 7 .REMOTE_ADD_REF]
    ∧ drain_shelf 3 obQuiet [.OB_REMOTE_OBJECT_OP 2 7 .REMOTE_WHO_OWNS]
        = match handle_object_op 2 obQuiet 2 7 .REMOTE_WHO_OWNS with
          | none => none
          | some ob2 => drain_shelf 2 ob2 [] :=
  ⟨⟨by decide,
    broker_shelving_protocol.1 2 obQuiet 2 7 .OBJECT_ACCESS_Normal 1 []
      (by decide) (by decide) (by decide) (by decide) (by decide)⟩,
   ⟨by decide,
    broker_shelving_protocol.2.1 2 obInFlight 3 7 .REMOTE_ADD_REF
      [.OB_REMOTE_OBJECT_OP 1 7 .REMOTE_ADD_REF]
      (by decide) (by decide)
      (fun obj rec h => RemoteObjectOpMessage.noConfusion h)⟩,
   broker_shelving_protocol.2.2.1 2 obInFlight 1 7 (JavaObject.new 42 7) 2 []
      [.OB_REMOTE_OBJECT_OP 1 7 .REMOTE_ADD_REF]
      (by decide) (by decide) (by decide),
   broker_shelving_protocol.2.2.2 2 obQuiet 2 7 .REMOTE_WHO_OWNS []⟩

theorem cpool_indices_checked_witness :
    read_be_u16 [0, 2, 7, 0, 1] = some (2, [7, 0, 1])
    ∧ load_constant_pool [0, 2, 7, 0, 1] = .ok ([.CONSTANT_class_info 1], [])
    ∧ constantIndicesInRange 2 (.CONSTANT_class_info 1) :=
  ⟨by decide, by decide,
    (cpool_indices_checked.2) [0, 2, 7, 0, 1] 2 [7, 0, 1]
      [.CONSTANT_class_info 1] [] (by decide) (by decide)
      (.CONSTANT_class_info 1) (by simp)⟩

end RustyVM
